import Mathlib

/-!
# gazebo_simple_controller: a verification development

Shallow embedding of `src/gazebo_simple_controller.cpp`.

Conventions of the embedding:

* the main model is exact: a C++ `double` is a rational number (`ℚ`), `fabs` is the absolute
  value, and `==`, `<`, `>` on doubles are the decidable relations of `ℚ`;
* two finer models cover what the exact one leaves out: `Double` carries the special values
  (the infinities and NaN) through the quotient `load_factor` and the limits of the vertical
  force, and `roundDouble` with `updateRounded` carries the rounding of every double operation
  through `PIDController::update`; each statement says which model it is about;
* member functions become functions from the object before the call to the object after the
  call (paired with the returned value when there is one);
* the two bodies selected by `GAZEBO_MAJOR_VERSION` are the two values of `Policy`;
* what the physics host and the vector library compute (link queries, quaternion rotations,
  Euler angles, vector length, `cos`, `sin`, the rate decimator) is not code of this file and
  enters as parameters (`Link`, `MathOps`, the `fired`/`dt` pair).
-/

namespace gazebo

namespace GazeboSimpleController

/-! ## PIDController -/

/-- The struct `GazeboSimpleController::PIDController`: five configuration fields and
six runtime fields (`input` and `dinput` are the filtered input and its derivative, `i` is the
integral). -/
structure PIDController where
  gain_p : ℚ
  gain_d : ℚ
  gain_i : ℚ
  time_constant : ℚ
  limit : ℚ
  input : ℚ
  dinput : ℚ
  output : ℚ
  p : ℚ
  i : ℚ
  d : ℚ
  deriving DecidableEq, Repr

namespace PIDController

/-- The member function `PIDController::updateGains` (source lines 663-670). -/
def updateGains (c : PIDController) (gain_p_new gain_d_new gain_i_new time_constant_new : ℚ) :
    PIDController :=
  { c with
    gain_p := gain_p_new
    gain_d := gain_d_new
    gain_i := gain_i_new
    time_constant := time_constant_new }

/-- The first statement of `PIDController::update` (lines 674-676): the command limit. -/
def limitCommand (limit new_input : ℚ) : ℚ :=
  if limit > 0 ∧ |new_input| > limit then (if new_input < 0 then -1 else 1) * limit
  else new_input

/-- The member function `PIDController::update` (source lines 672-693): the object after the call and the
returned value. -/
def update (c : PIDController) (new_input x dx dt : ℚ) : PIDController × ℚ :=
  -- limit command
  let new_input := limitCommand c.limit new_input
  -- filter command
  let dinput := if dt + c.time_constant > 0 then (new_input - c.input) / (dt + c.time_constant)
    else c.dinput
  let input := if dt + c.time_constant > 0 then
      (dt * new_input + c.time_constant * c.input) / (dt + c.time_constant)
    else c.input
  -- update proportional, differential and integral errors
  let p := input - x
  let d := dinput - dx
  let i := c.i + dt * p
  -- update control output
  let output := c.gain_p * p + c.gain_d * d + c.gain_i * i
  ({ c with input := input, dinput := dinput, p := p, d := d, i := i, output := output }, output)

/-- The member function `PIDController::reset` (source lines 695-699). -/
def reset (c : PIDController) : PIDController :=
  { c with input := 0, dinput := 0, p := 0, i := 0, d := 0, output := 0 }

/-- The reference law of the specification for one `update`, written from the specification's
four steps: clamp, filter, errors, output. It is compared with `update` in the theorems. -/
def updateSpec (c : PIDController) (setpoint measured_value measured_derivative dt : ℚ) :
    PIDController × ℚ :=
  let s : ℚ :=
    if c.limit > 0 ∧ |setpoint| > c.limit then SignType.sign setpoint * c.limit else setpoint
  let filtered_dinput : ℚ :=
    if dt + c.time_constant > 0 then (s - c.input) / (dt + c.time_constant) else c.dinput
  let filtered_input : ℚ :=
    if dt + c.time_constant > 0 then (dt * s + c.time_constant * c.input) / (dt + c.time_constant)
    else c.input
  let p : ℚ := filtered_input - measured_value
  let d : ℚ := filtered_dinput - measured_derivative
  let integral : ℚ := c.i + dt * p
  let out : ℚ := c.gain_p * p + c.gain_d * d + c.gain_i * integral
  ({ gain_p := c.gain_p, gain_d := c.gain_d, gain_i := c.gain_i,
     time_constant := c.time_constant, limit := c.limit,
     input := filtered_input, dinput := filtered_dinput, output := out,
     p := p, i := integral, d := d }, out)

/-- Successive `update` calls with the same `dt`, one per element of `calls`
(each element is `(setpoint, measured_value, measured_derivative)`): the object after the
last call and the list of returned values, in call order. -/
def updates (dt : ℚ) : PIDController → List (ℚ × ℚ × ℚ) → PIDController × List ℚ
  | c, [] => (c, [])
  | c, (s, x, dx) :: rest =>
    let r := update c s x dx dt
    let q := updates dt r.1 rest
    (q.1, r.2 :: q.2)

/-- Every one of the successive `update` calls of `updates dt c calls` leaves the proportional
error `p` equal to 1. -/
def seesUnitError (dt : ℚ) : PIDController → List (ℚ × ℚ × ℚ) → Prop
  | _, [] => True
  | c, (s, x, dx) :: rest =>
    (update c s x dx dt).1.p = 1 ∧ seesUnitError dt (update c s x dx dt).1 rest

/-- One call on a controller: an `update` with its four arguments or an `updateGains` with its
four arguments. -/
inductive Call where
  | update (new_input x dx dt : ℚ)
  | updateGains (gain_p_new gain_d_new gain_i_new time_constant_new : ℚ)
  deriving DecidableEq, Repr

/-- The object after one call. -/
def Call.apply (c : PIDController) : Call → PIDController
  | .update new_input x dx dt => (c.update new_input x dx dt).1
  | .updateGains p d i t => c.updateGains p d i t

/-- The calls of the filter invariant: an `update` with `dt > 0`, or an `updateGains` whose new
time constant is not negative. -/
def Call.admissible : Call → Prop
  | .update _ _ _ dt => dt > 0
  | .updateGains _ _ _ t => t ≥ 0

/-- The object after a finite sequence of calls, in call order. -/
def calls (c : PIDController) (cs : List Call) : PIDController :=
  cs.foldl Call.apply c

/-- The six runtime fields of a controller, in the order `input`, `dinput`, `output`, `p`, `i`,
`d`. -/
def runtime (c : PIDController) : ℚ × ℚ × ℚ × ℚ × ℚ × ℚ :=
  (c.input, c.dinput, c.output, c.p, c.i, c.d)

end PIDController

end GazeboSimpleController

/-! ## Vectors, poses and messages -/

/-- A vector of three doubles (`math::Vector3`, `ignition::math::Vector3d`,
`geometry_msgs::Vector3`). -/
structure Vector3 where
  x : ℚ
  y : ℚ
  z : ℚ
  deriving DecidableEq, Repr

namespace Vector3

/-- The vector written by `Set()` without arguments. -/
def zero : Vector3 := ⟨0, 0, 0⟩

/-- Component-wise difference, `a - b`. -/
def sub (a b : Vector3) : Vector3 := ⟨a.x - b.x, a.y - b.y, a.z - b.z⟩

/-- Division by a scalar, `a / s`. -/
def div (a : Vector3) (s : ℚ) : Vector3 := ⟨a.x / s, a.y / s, a.z / s⟩

/-- The scalar product `a.Dot(b)`. -/
def Dot (a b : Vector3) : ℚ := a.x * b.x + a.y * b.y + a.z * b.z

/-- The vector product `a.Cross(b)`. -/
def Cross (a b : Vector3) : Vector3 :=
  ⟨a.y * b.z - a.z * b.y, a.z * b.x - a.x * b.z, a.x * b.y - a.y * b.x⟩

end Vector3

/-- A quaternion, in the argument order `(w, x, y, z)` of the constructor and of `Set`. -/
structure Quaternion where
  w : ℚ
  x : ℚ
  y : ℚ
  z : ℚ
  deriving DecidableEq, Repr

/-- A pose: position and rotation. -/
structure Pose where
  pos : Vector3
  rot : Quaternion
  deriving DecidableEq, Repr

/-- The pose left by `pose.Reset()`: the origin with the identity rotation. -/
def Pose.reset : Pose := ⟨Vector3.zero, ⟨1, 0, 0, 0⟩⟩

/-- The message `geometry_msgs::Twist`. -/
structure Twist where
  linear : Vector3
  angular : Vector3
  deriving DecidableEq, Repr

/-- The fields of `sensor_msgs::Imu` that `ImuCallback` reads. -/
structure Imu where
  orientation : Quaternion
  angular_velocity : Vector3
  deriving DecidableEq, Repr

/-- The fields of `nav_msgs::Odometry` that `StateCallback` reads; the stamp is a `ros::Time`,
counted in nanoseconds. -/
structure Odometry where
  stamp : ℕ
  position : Vector3
  orientation : Quaternion
  twist_linear : Vector3
  twist_angular : Vector3
  deriving DecidableEq, Repr

/-- The seconds of the `ros::Duration` `a - b` of two `ros::Time` values (`toSec`). -/
def durationToSec (a b : ℕ) : ℚ := ((a : ℤ) - (b : ℤ) : ℤ) / 1000000000

/-! ## What the vector library and the physics host compute -/

/-- The operations of the vector library that the controller calls and whose results are not
rational functions of their arguments. -/
structure MathOps where
  /-- The result of `Quaternion::GetAsEuler` / `Quaterniond::Euler`. -/
  euler : Quaternion → Vector3
  /-- The result of `Quaternion::RotateVector`. -/
  rotateVector : Quaternion → Vector3 → Vector3
  /-- The result of `Quaternion::RotateVectorReverse`. -/
  rotateVectorReverse : Quaternion → Vector3 → Vector3
  /-- The result of `Vector3::GetLength` / `Vector3d::Length`. -/
  length : Vector3 → ℚ
  /-- The function `cos` of `<cmath>`. -/
  cos : ℚ → ℚ
  /-- The function `sin` of `<cmath>`. -/
  sin : ℚ → ℚ

/-- What the physics host answers during one call of `Update`: the queries on `link` and
`world`. -/
structure Link where
  /-- The result of `link->GetWorldPose()`. -/
  worldPose : Pose
  /-- The result of `link->GetWorldLinearVel()`. -/
  worldLinearVel : Vector3
  /-- The result of `link->GetWorldAngularVel()`. -/
  worldAngularVel : Vector3
  /-- The result of `link->GetWorldAngularAccel()`. -/
  worldAngularAccel : Vector3
  /-- The result of `world->GetPhysicsEngine()->GetGravity()`. -/
  gravity : Vector3
  /-- The result of `link->GetInertial()->GetCoG()`. -/
  cog : Vector3
  deriving DecidableEq, Repr

/-- The two bodies of the control law, selected in the source by `GAZEBO_MAJOR_VERSION`:
`attitudeRate` is the `>= 8` body, `positionCascade` the `< 8` body. -/
inductive Policy where
  | attitudeRate
  | positionCascade
  deriving DecidableEq, Repr

/-! ## The controller bank -/

/-- The member `controllers_`: the twelve single-axis controllers. -/
structure Controllers where
  roll_vel : GazeboSimpleController.PIDController
  pitch_vel : GazeboSimpleController.PIDController
  yaw_vel : GazeboSimpleController.PIDController
  roll : GazeboSimpleController.PIDController
  pitch : GazeboSimpleController.PIDController
  yaw : GazeboSimpleController.PIDController
  velocity_x : GazeboSimpleController.PIDController
  velocity_y : GazeboSimpleController.PIDController
  velocity_z : GazeboSimpleController.PIDController
  position_x : GazeboSimpleController.PIDController
  position_y : GazeboSimpleController.PIDController
  position_z : GazeboSimpleController.PIDController
  deriving DecidableEq, Repr

/-- The names of the twelve controllers of the bank. -/
inductive Axis where
  | roll_vel | pitch_vel | yaw_vel | roll | pitch | yaw
  | velocity_x | velocity_y | velocity_z | position_x | position_y | position_z
  deriving DecidableEq, Repr

/-- The controller of the bank with a given name. -/
def Controllers.get (cs : Controllers) : Axis → GazeboSimpleController.PIDController
  | .roll_vel => cs.roll_vel
  | .pitch_vel => cs.pitch_vel
  | .yaw_vel => cs.yaw_vel
  | .roll => cs.roll
  | .pitch => cs.pitch
  | .yaw => cs.yaw
  | .velocity_x => cs.velocity_x
  | .velocity_y => cs.velocity_y
  | .velocity_z => cs.velocity_z
  | .position_x => cs.position_x
  | .position_y => cs.position_y
  | .position_z => cs.position_z

/-- The numbering of the specification for the reconfiguration selector: velocity-x=1,
position-x=2, velocity-y=3, position-y=4, velocity-z=5, position-z=6, roll-rate=7, roll=8,
pitch-rate=9, pitch=10, yaw-rate=11, yaw=12. It is written from the specification and compared
with `ControllerCallback` below. -/
def selectorAxis : ℕ → Option Axis
  | 1 => some .velocity_x
  | 2 => some .position_x
  | 3 => some .velocity_y
  | 4 => some .position_y
  | 5 => some .velocity_z
  | 6 => some .position_z
  | 7 => some .roll_vel
  | 8 => some .roll
  | 9 => some .pitch_vel
  | 10 => some .pitch
  | 11 => some .yaw_vel
  | 12 => some .yaw
  | _ => none

/-! ## The controller object -/

/-- The members of the class `GazeboSimpleController` that the callbacks, `Update` and `Reset`
read or write. -/
structure GazeboSimpleController where
  -- configuration, written by `Load`
  imu_topic_ : String
  state_topic_ : String
  max_force_ : ℚ
  max_torque_ : ℚ
  auto_engage_ : Bool
  inertia : Vector3
  mass : ℚ
  -- the bank
  controllers_ : Controllers
  -- latest commands
  controller_callback_ : Twist
  position_command_ : Twist
  velocity_command_ : Twist
  real_velocity_ : Twist
  -- vehicle state
  pose : Pose
  euler : Vector3
  velocity : Vector3
  acceleration : Vector3
  angular_velocity : Vector3
  angular_accelaration : Vector3
  state_stamp : ℕ
  -- outputs
  force : Vector3
  torque : Vector3
  -- engage state: `true` is Running, `false` is Idle
  running_ : Bool
  deriving DecidableEq, Repr

/-- One pending entry of `callback_queue_`: a message on a subscribed topic or a call of the
engage or shutdown service. -/
inductive Callback where
  | controller (controller_setting : Twist)
  | position (position : Twist)
  | velocity (velocity : Twist)
  | imu (imu : Imu)
  | state (state : Odometry)
  | engage
  | shutdown
  deriving DecidableEq, Repr

/-- Whether a pending entry is a call of the engage or of the shutdown service. -/
def Callback.isTrigger : Callback → Bool
  | .engage => true
  | .shutdown => true
  | _ => false

namespace GazeboSimpleController

/-! ## Callbacks -/

/-- The callback `ControllerCallback` (source lines 226-268): twelve successive tests of the
selector `linear.x` against the constants 1 to 12. -/
def ControllerCallback (st : GazeboSimpleController) (controller_setting : Twist) :
    GazeboSimpleController :=
  let m := controller_setting
  let cs := st.controllers_
  let cs := if m.linear.x = 1 then
    { cs with velocity_x := cs.velocity_x.updateGains m.linear.y m.linear.z m.angular.x m.angular.y }
    else cs
  let cs := if m.linear.x = 2 then
    { cs with position_x := cs.position_x.updateGains m.linear.y m.linear.z m.angular.x m.angular.y }
    else cs
  let cs := if m.linear.x = 3 then
    { cs with velocity_y := cs.velocity_y.updateGains m.linear.y m.linear.z m.angular.x m.angular.y }
    else cs
  let cs := if m.linear.x = 4 then
    { cs with position_y := cs.position_y.updateGains m.linear.y m.linear.z m.angular.x m.angular.y }
    else cs
  let cs := if m.linear.x = 5 then
    { cs with velocity_z := cs.velocity_z.updateGains m.linear.y m.linear.z m.angular.x m.angular.y }
    else cs
  let cs := if m.linear.x = 6 then
    { cs with position_z := cs.position_z.updateGains m.linear.y m.linear.z m.angular.x m.angular.y }
    else cs
  let cs := if m.linear.x = 7 then
    { cs with roll_vel := cs.roll_vel.updateGains m.linear.y m.linear.z m.angular.x m.angular.y }
    else cs
  let cs := if m.linear.x = 8 then
    { cs with roll := cs.roll.updateGains m.linear.y m.linear.z m.angular.x m.angular.y }
    else cs
  let cs := if m.linear.x = 9 then
    { cs with pitch_vel := cs.pitch_vel.updateGains m.linear.y m.linear.z m.angular.x m.angular.y }
    else cs
  let cs := if m.linear.x = 10 then
    { cs with pitch := cs.pitch.updateGains m.linear.y m.linear.z m.angular.x m.angular.y }
    else cs
  let cs := if m.linear.x = 11 then
    { cs with yaw_vel := cs.yaw_vel.updateGains m.linear.y m.linear.z m.angular.x m.angular.y }
    else cs
  let cs := if m.linear.x = 12 then
    { cs with yaw := cs.yaw.updateGains m.linear.y m.linear.z m.angular.x m.angular.y }
    else cs
  { st with controller_callback_ := m, controllers_ := cs }

/-- The callback `PositionCallback` (source lines 270-273). -/
def PositionCallback (st : GazeboSimpleController) (position : Twist) : GazeboSimpleController :=
  { st with position_command_ := position }

/-- The callback `VelocityCallback` (source lines 275-278). -/
def VelocityCallback (st : GazeboSimpleController) (velocity : Twist) : GazeboSimpleController :=
  { st with velocity_command_ := velocity }

/-- The callback `ImuCallback` (source lines 280-293); both bodies do the same. -/
def ImuCallback (ops : MathOps) (st : GazeboSimpleController) (imu : Imu) :
    GazeboSimpleController :=
  let pose : Pose := { st.pose with rot := imu.orientation }
  { st with
    pose := pose
    euler := ops.euler pose.rot
    angular_velocity := ops.rotateVector pose.rot imu.angular_velocity }

/-- The callback `StateCallback` (source lines 295-332); both bodies do the same. -/
def StateCallback (ops : MathOps) (st : GazeboSimpleController) (state : Odometry) :
    GazeboSimpleController :=
  let velocity1 := st.velocity
  let st : GazeboSimpleController :=
    if st.imu_topic_ = "" then
      let pose : Pose := { pos := state.position, rot := state.orientation }
      { st with pose := pose, euler := ops.euler pose.rot, angular_velocity := state.twist_angular }
    else st
  let velocity := state.twist_linear
  -- calculate acceleration
  let dt : ℚ := if st.state_stamp ≠ 0 then durationToSec state.stamp st.state_stamp else 0
  { st with
    velocity := velocity
    state_stamp := state.stamp
    acceleration := if dt > 0 then (velocity.sub velocity1).div dt else Vector3.zero }

/-- The callback `EngageCallback` (source lines 334-339). -/
def EngageCallback (st : GazeboSimpleController) : GazeboSimpleController :=
  { st with running_ := true }

/-- The callback `ShutdownCallback` (source lines 341-346). -/
def ShutdownCallback (st : GazeboSimpleController) : GazeboSimpleController :=
  { st with running_ := false }

/-- The callback that one pending entry of the queue runs. -/
def dispatch (ops : MathOps) (st : GazeboSimpleController) : Callback → GazeboSimpleController
  | .controller m => ControllerCallback st m
  | .position m => PositionCallback st m
  | .velocity m => VelocityCallback st m
  | .imu m => ImuCallback ops st m
  | .state m => StateCallback ops st m
  | .engage => EngageCallback st
  | .shutdown => ShutdownCallback st

/-- The call `callback_queue_.callAvailable()` (source line 353): the pending entries run in
arrival order. -/
def callAvailable (ops : MathOps) (st : GazeboSimpleController) (queue : List Callback) :
    GazeboSimpleController :=
  queue.foldl (dispatch ops) st

/-! ## One control tick -/

/-- The refresh of the vehicle state from the physics host (source lines 358-390). -/
def readLink (policy : Policy) (ops : MathOps) (link : Link) (dt : ℚ)
    (st : GazeboSimpleController) : GazeboSimpleController :=
  match policy with
  | .attitudeRate =>
    let st : GazeboSimpleController :=
      if st.imu_topic_ = "" then
        { st with
          pose := link.worldPose
          angular_velocity := link.worldAngularVel
          euler := ops.euler link.worldPose.rot }
      else st
    if st.state_topic_ = "" then
      { st with
        acceleration := (link.worldLinearVel.sub st.velocity).div dt
        velocity := link.worldLinearVel }
    else st
  | .positionCascade =>
    let st : GazeboSimpleController :=
      if st.imu_topic_ = "" then
        { st with
          pose := link.worldPose
          angular_velocity := link.worldAngularVel
          angular_accelaration := link.worldAngularAccel
          euler := ops.euler link.worldPose.rot
          real_velocity_ := { st.real_velocity_ with angular := link.worldAngularVel } }
      else st
    if st.state_topic_ = "" then
      { st with
        acceleration := (link.worldLinearVel.sub st.velocity).div dt
        velocity := link.worldLinearVel
        real_velocity_ := { st.real_velocity_ with linear := link.worldLinearVel } }
    else st

/-- The automatic engage (source lines 392-400). -/
def autoEngage (st : GazeboSimpleController) : GazeboSimpleController :=
  if st.auto_engage_ then
    if !st.running_ ∧ st.position_command_.linear.z > 0.1 then { st with running_ := true }
    else st
  else st

/-- The control law of the `GAZEBO_MAJOR_VERSION >= 8` body (source lines 443-458), the
attitude-rate-from-velocity policy. `force` and `torque` are zero on entry. -/
def attitudeRateLaw (ops : MathOps) (dt gravity load_factor : ℚ)
    (st : GazeboSimpleController) : GazeboSimpleController :=
  let heading_quaternion : Quaternion := ⟨ops.cos (st.euler.z / 2), 0, 0, ops.sin (st.euler.z / 2)⟩
  let velocity_xy := ops.rotateVectorReverse heading_quaternion st.velocity
  let acceleration_xy := ops.rotateVectorReverse heading_quaternion st.acceleration
  let angular_velocity_body := ops.rotateVectorReverse st.pose.rot st.angular_velocity
  let cs := st.controllers_
  let vx := cs.velocity_x.update st.velocity_command_.linear.x velocity_xy.x acceleration_xy.x dt
  let pitch_command := vx.2 / gravity
  let vy := cs.velocity_y.update st.velocity_command_.linear.y velocity_xy.y acceleration_xy.y dt
  let roll_command := -vy.2 / gravity
  let r := cs.roll.update roll_command st.euler.x angular_velocity_body.x dt
  let pt := cs.pitch.update pitch_command st.euler.y angular_velocity_body.y dt
  let yw := cs.yaw.update st.velocity_command_.angular.z st.angular_velocity.z 0 dt
  let vz := cs.velocity_z.update st.velocity_command_.linear.z st.velocity.z st.acceleration.z dt
  let force_z := st.mass * (vz.2 + load_factor * gravity)
  let force_z := if st.max_force_ > 0 ∧ force_z > st.max_force_ then st.max_force_ else force_z
  let force_z := if force_z < 0 then 0 else force_z
  { st with
    controllers_ :=
      { cs with
        velocity_x := vx.1, velocity_y := vy.1, roll := r.1, pitch := pt.1, yaw := yw.1,
        velocity_z := vz.1 }
    torque := ⟨st.inertia.x * r.2, st.inertia.y * pt.2, st.inertia.z * yw.2⟩
    force := { st.force with z := force_z } }

/-- The first half of the `GAZEBO_MAJOR_VERSION < 8` body (source lines 463-487), the position
cascade before saturation: the twelve `update` calls, the velocity command they overwrite, and
the raw force and torque. -/
def positionCascadeRaw (dt gravity load_factor : ℚ) (st : GazeboSimpleController) :
    GazeboSimpleController :=
  let cs := st.controllers_
  let px := cs.position_x.update st.position_command_.linear.x st.pose.pos.x st.velocity.x dt
  let py := cs.position_y.update st.position_command_.linear.y st.pose.pos.y st.velocity.y dt
  let pz := cs.position_z.update st.position_command_.linear.z st.pose.pos.z st.velocity.z dt
  let vx := cs.velocity_x.update px.2 st.velocity.x st.acceleration.x dt
  let vy := cs.velocity_y.update py.2 st.velocity.y st.acceleration.y dt
  let vz := cs.velocity_z.update pz.2 st.velocity.z st.acceleration.z dt
  let r := cs.roll.update st.position_command_.angular.x st.euler.x st.angular_velocity.x dt
  let pt := cs.pitch.update st.position_command_.angular.y st.euler.y st.angular_velocity.y dt
  let yw := cs.yaw.update st.position_command_.angular.z st.euler.z st.angular_velocity.z dt
  let rv := cs.roll_vel.update r.2 st.angular_velocity.x st.angular_accelaration.x dt
  let pv := cs.pitch_vel.update pt.2 st.angular_velocity.y st.angular_accelaration.y dt
  let yv := cs.yaw_vel.update yw.2 st.angular_velocity.z st.angular_accelaration.z dt
  { st with
    controllers_ :=
      { roll_vel := rv.1, pitch_vel := pv.1, yaw_vel := yv.1, roll := r.1, pitch := pt.1,
        yaw := yw.1, velocity_x := vx.1, velocity_y := vy.1, velocity_z := vz.1,
        position_x := px.1, position_y := py.1, position_z := pz.1 }
    velocity_command_ := { linear := ⟨px.2, py.2, pz.2⟩, angular := ⟨r.2, pt.2, yw.2⟩ }
    force := ⟨st.mass * vx.2, st.mass * vy.2, st.mass * (vz.2 + load_factor * gravity)⟩
    torque := ⟨st.inertia.x * rv.2, st.inertia.y * pv.2, st.inertia.z * yv.2⟩ }

/-- The second half of the `GAZEBO_MAJOR_VERSION < 8` body (source lines 498-509): the six
saturation statements, on a force and a torque. -/
def positionCascadeSaturate (max_force_ max_torque_ : ℚ) (force torque : Vector3) :
    Vector3 × Vector3 :=
  let force_z := if max_force_ > 0 ∧ |force.z| + 10 > max_force_ then
      (if force.z > max_force_ then max_force_ + 10 else -max_force_ - 10)
    else force.z
  let force_x := if max_force_ > 0 ∧ |force.x| > max_force_ then
      (if force.x > max_force_ then max_force_ else -max_force_)
    else force.x
  let force_y := if max_force_ > 0 ∧ |force.y| > max_force_ then
      (if force.y > max_force_ then max_force_ else -max_force_)
    else force.y
  let torque_x := if max_torque_ > 0 ∧ |torque.x| > max_torque_ then
      (if torque.x > max_force_ then max_torque_ else -max_torque_)
    else torque.x
  let torque_y := if max_torque_ > 0 ∧ |torque.y| > max_torque_ then
      (if torque.y > max_force_ then max_torque_ else -max_torque_)
    else torque.y
  let torque_z := if max_torque_ > 0 ∧ |torque.z| > max_torque_ then
      (if torque.z > max_force_ then max_torque_ else -max_torque_)
    else torque.z
  (⟨force_x, force_y, force_z⟩, ⟨torque_x, torque_y, torque_z⟩)

/-- The control law of the `GAZEBO_MAJOR_VERSION < 8` body (source lines 463-509), the position
cascade policy. -/
def positionCascadeLaw (dt gravity load_factor : ℚ) (st : GazeboSimpleController) :
    GazeboSimpleController :=
  let st := positionCascadeRaw dt gravity load_factor st
  let ft := positionCascadeSaturate st.max_force_ st.max_torque_ st.force st.torque
  { st with force := ft.1, torque := ft.2 }

/-- The `else` branch of `if (running_)` (source lines 534-545): the nine resets of an idle
tick. -/
def idleReset (st : GazeboSimpleController) : GazeboSimpleController :=
  let cs := st.controllers_
  { st with
    controllers_ :=
      { cs with
        roll := cs.roll.reset, pitch := cs.pitch.reset, yaw := cs.yaw.reset,
        roll_vel := cs.roll_vel.reset, pitch_vel := cs.pitch_vel.reset,
        yaw_vel := cs.yaw_vel.reset, velocity_x := cs.velocity_x.reset,
        velocity_y := cs.velocity_y.reset, velocity_z := cs.velocity_z.reset } }

/-- The local `gravity` of `Update` (source lines 415-416 and 419-420): the length of the
gravity vector rotated by the orientation. -/
def gravityOf (ops : MathOps) (link : Link) (st : GazeboSimpleController) : ℚ :=
  ops.length (ops.rotateVector st.pose.rot link.gravity)

/-- The local `load_factor` of `Update` (source lines 417 and 421) in the exact model. It is
the quotient of the code when the divisor `gravityDot` is not zero; with a zero divisor the
double quotient is NaN or an infinity, which `loadFactorDouble` gives. -/
def loadFactorOf (ops : MathOps) (link : Link) (st : GazeboSimpleController) : ℚ :=
  gravityOf ops link st * gravityOf ops link st
    / link.gravity.Dot (ops.rotateVector st.pose.rot link.gravity)

/-- The two statements `force.Set(0.0, 0.0, 0.0); torque.Set(0.0, 0.0, 0.0);` (source lines
438-439). -/
def clearWrench (st : GazeboSimpleController) : GazeboSimpleController :=
  { st with force := Vector3.zero, torque := Vector3.zero }

/-- The body of `if (controlTimer.update(dt) && dt > 0.0)` (source lines 357-585): one executed
control tick. Publishing the wrench and the two telemetry messages changes no member and is
left out. -/
def controlStep (policy : Policy) (ops : MathOps) (link : Link) (dt : ℚ)
    (st : GazeboSimpleController) : GazeboSimpleController :=
  let st := readLink policy ops link dt st
  let st := autoEngage st
  -- Get gravity
  let gravity := gravityOf ops link st
  let load_factor := loadFactorOf ops link st
  -- update controllers
  let st := clearWrench st
  if st.running_ then
    match policy with
    | .attitudeRate => attitudeRateLaw ops dt gravity load_factor st
    | .positionCascade => positionCascadeLaw dt gravity load_factor st
  else idleReset st

/-- The member function `Update` (source lines 350-594) up to the two calls that hand the
wrench to the host: the pending callbacks run, then the tick executes when the rate decimator
`controlTimer.update(dt)` fired (`fired`) and reported a positive interval `dt`. -/
def Update (policy : Policy) (ops : MathOps) (link : Link) (queue : List Callback)
    (fired : Bool) (dt : ℚ) (st : GazeboSimpleController) : GazeboSimpleController :=
  let st := callAvailable ops st queue
  if fired ∧ dt > 0 then controlStep policy ops link dt st else st

/-- The argument of `link->AddForce` at the end of `Update` (source line 588). -/
def appliedForce (st : GazeboSimpleController) : Vector3 := st.force

/-- The argument of `link->AddRelativeTorque` at the end of `Update` (source lines 589-593). -/
def appliedRelativeTorque (link : Link) (st : GazeboSimpleController) : Vector3 :=
  st.torque.sub (link.cog.Cross st.force)

/-- The member function `Reset` (source lines 607-628). -/
def Reset (st : GazeboSimpleController) : GazeboSimpleController :=
  let cs := st.controllers_
  { st with
    controllers_ :=
      { cs with
        roll := cs.roll.reset, pitch := cs.pitch.reset, yaw := cs.yaw.reset,
        velocity_x := cs.velocity_x.reset, velocity_y := cs.velocity_y.reset,
        velocity_z := cs.velocity_z.reset }
    force := Vector3.zero
    torque := Vector3.zero
    pose := Pose.reset
    velocity := Vector3.zero
    angular_velocity := Vector3.zero
    acceleration := Vector3.zero
    euler := Vector3.zero
    state_stamp := 0
    running_ := false }

end GazeboSimpleController

namespace GazeboSimpleController

/-- The state that the control law of an executed tick reads: the object after the pending
callbacks, the refresh from the physics host and the automatic engage. -/
def tickInput (policy : Policy) (ops : MathOps) (link : Link) (queue : List Callback) (dt : ℚ)
    (st : GazeboSimpleController) : GazeboSimpleController :=
  autoEngage (readLink policy ops link dt (callAvailable ops st queue))

/-- The vertical force of the attitude-rate body before its two limits (source lines 452-454):
`mass * (velocity_z output + load_factor * gravity)`, on the state that the law reads. -/
def attitudeRateRawForceZ (ops : MathOps) (link : Link) (dt : ℚ) (st : GazeboSimpleController) :
    ℚ :=
  st.mass * ((st.controllers_.velocity_z.update st.velocity_command_.linear.z st.velocity.z
      st.acceleration.z dt).2 + loadFactorOf ops link st * gravityOf ops link st)

/-- The vertical force of the position-cascade body before saturation (source lines 467-472):
`mass * (velocity_z output + load_factor * gravity)`, where the velocity-z setpoint is the
output of the position-z controller. -/
def positionCascadeRawForceZ (ops : MathOps) (link : Link) (dt : ℚ)
    (st : GazeboSimpleController) : ℚ :=
  st.mass * ((st.controllers_.velocity_z.update
      (st.controllers_.position_z.update st.position_command_.linear.z st.pose.pos.z
        st.velocity.z dt).2 st.velocity.z st.acceleration.z dt).2
    + loadFactorOf ops link st * gravityOf ops link st)

end GazeboSimpleController

/-! ## Doubles with their special values -/

/-- A `double` as a comparison or a saturation statement sees it: a finite value, taken as an
exact rational, one of the two infinities, or NaN. The sign of a zero is not part of the value;
where it matters (a division by zero) it is a separate argument. -/
inductive Double where
  | finite (q : ℚ)
  | posInf
  | negInf
  | nan
  deriving DecidableEq, Repr

namespace Double

/-- Unary minus. -/
def neg : Double → Double
  | finite q => finite (-q)
  | posInf => negInf
  | negInf => posInf
  | nan => nan

/-- The function `fabs` of `<cmath>`. -/
def fabs : Double → Double
  | finite q => finite |q|
  | posInf => posInf
  | negInf => posInf
  | nan => nan

/-- Addition: NaN propagates and the sum of opposite infinities is NaN. -/
def add : Double → Double → Double
  | finite a, finite b => finite (a + b)
  | finite _, posInf => posInf
  | finite _, negInf => negInf
  | finite _, nan => nan
  | posInf, finite _ => posInf
  | posInf, posInf => posInf
  | posInf, negInf => nan
  | posInf, nan => nan
  | negInf, finite _ => negInf
  | negInf, posInf => nan
  | negInf, negInf => negInf
  | negInf, nan => nan
  | nan, _ => nan

/-- Subtraction, `a - b = a + (-b)`. -/
def sub (a b : Double) : Double := add a (neg b)

/-- Multiplication: NaN propagates and zero times an infinity is NaN. -/
def mul : Double → Double → Double
  | finite a, finite b => finite (a * b)
  | finite a, posInf => if a = 0 then nan else if a > 0 then posInf else negInf
  | finite a, negInf => if a = 0 then nan else if a > 0 then negInf else posInf
  | finite _, nan => nan
  | posInf, finite b => if b = 0 then nan else if b > 0 then posInf else negInf
  | posInf, posInf => posInf
  | posInf, negInf => negInf
  | posInf, nan => nan
  | negInf, finite b => if b = 0 then nan else if b > 0 then negInf else posInf
  | negInf, posInf => negInf
  | negInf, negInf => posInf
  | negInf, nan => nan
  | nan, _ => nan

/-- Division: NaN propagates, `0 / 0` and the quotient of two infinities are NaN, and a non-zero
value over zero is an infinity whose sign is the sign of the dividend, reversed when the zero
divisor is `-0.0` (`negZero`). -/
def div (negZero : Bool) : Double → Double → Double
  | finite a, finite b =>
    if b = 0 then
      if a = 0 then nan else if (decide (a > 0) != negZero) then posInf else negInf
    else finite (a / b)
  | finite _, posInf => finite 0
  | finite _, negInf => finite 0
  | finite _, nan => nan
  | posInf, finite b =>
    if b = 0 then (if negZero then negInf else posInf) else if b > 0 then posInf else negInf
  | posInf, posInf => nan
  | posInf, negInf => nan
  | posInf, nan => nan
  | negInf, finite b =>
    if b = 0 then (if negZero then posInf else negInf) else if b > 0 then negInf else posInf
  | negInf, posInf => nan
  | negInf, negInf => nan
  | negInf, nan => nan
  | nan, _ => nan

/-- The comparison `a > b`: false as soon as one side is NaN. -/
def gt : Double → Double → Bool
  | finite a, finite b => decide (a > b)
  | finite _, posInf => false
  | finite _, negInf => true
  | finite _, nan => false
  | posInf, finite _ => true
  | posInf, posInf => false
  | posInf, negInf => true
  | posInf, nan => false
  | negInf, _ => false
  | nan, _ => false

/-- The comparison `a < b`: false as soon as one side is NaN. -/
def lt (a b : Double) : Bool := gt b a

/-- The order of the values that are numbers: `a <= b` holds for no NaN. -/
def le : Double → Double → Prop
  | finite a, finite b => a ≤ b
  | finite _, posInf => True
  | finite _, negInf => False
  | finite _, nan => False
  | posInf, finite _ => False
  | posInf, posInf => True
  | posInf, negInf => False
  | posInf, nan => False
  | negInf, finite _ => True
  | negInf, posInf => True
  | negInf, negInf => True
  | negInf, nan => False
  | nan, _ => False

end Double

/-- The quotient `gravity * gravity / dot` of source lines 417 and 421 on doubles with their
special values. -/
def loadFactorDouble (negZero : Bool) (gravity dot : Double) : Double :=
  Double.div negZero (Double.mul gravity gravity) dot

/-- The raw vertical force `mass * (velocity_z output + load_factor * gravity)` of source lines
452-454 and 471-472 on doubles with their special values. -/
def rawForceZDouble (negZero : Bool) (mass vz gravity dot : Double) : Double :=
  Double.mul mass (Double.add vz (Double.mul (loadFactorDouble negZero gravity dot) gravity))

/-- The saturation statement of `force.z` in the position-cascade body (source lines 498-499) on
doubles with their special values. -/
def saturateVerticalDouble (max_force_ force_z : Double) : Double :=
  if Double.gt max_force_ (Double.finite 0)
      && Double.gt (Double.add (Double.fabs force_z) (Double.finite 10)) max_force_ then
    (if Double.gt force_z max_force_ then Double.add max_force_ (Double.finite 10)
     else Double.sub (Double.neg max_force_) (Double.finite 10))
  else force_z

/-- The saturation statement of `force.x` and of `force.y` in the position-cascade body (source
lines 500-503) on doubles with their special values. -/
def saturateHorizontalDouble (max_force_ f : Double) : Double :=
  if Double.gt max_force_ (Double.finite 0) && Double.gt (Double.fabs f) max_force_ then
    (if Double.gt f max_force_ then max_force_ else Double.neg max_force_)
  else f

/-- The two limits of `force.Z()` in the attitude-rate body (source lines 455-458) on doubles
with their special values: the cap at `max_force_`, then the floor at zero. -/
def attitudeRateLimitDouble (max_force_ force_z : Double) : Double :=
  let capped :=
    if Double.gt max_force_ (Double.finite 0) && Double.gt force_z max_force_ then max_force_
    else force_z
  if Double.lt capped (Double.finite 0) then Double.finite 0 else capped

namespace GazeboSimpleController

/-- The scalar product of the world gravity with the gravity rotated by the orientation, the
divisor of `load_factor` (source lines 417 and 421). -/
def gravityDot (ops : MathOps) (link : Link) (st : GazeboSimpleController) : ℚ :=
  link.gravity.Dot (ops.rotateVector st.pose.rot link.gravity)

/-- The output of the velocity-z controller in an executed tick (source lines 453 and 467-471),
on the state that the law reads. -/
def velocityZOutput (policy : Policy) (dt : ℚ) (st : GazeboSimpleController) : ℚ :=
  match policy with
  | .attitudeRate =>
    (st.controllers_.velocity_z.update st.velocity_command_.linear.z st.velocity.z
      st.acceleration.z dt).2
  | .positionCascade =>
    (st.controllers_.velocity_z.update
      (st.controllers_.position_z.update st.position_command_.linear.z st.pose.pos.z
        st.velocity.z dt).2 st.velocity.z st.acceleration.z dt).2

/-- The raw vertical force of an executed tick with the special values of its quotient: the
mass, the controller output, the gravity and the divisor are the finite values of the exact
model, and `load_factor` is the double quotient, which is NaN or an infinity when the divisor is
zero. -/
def tickRawForceZDouble (negZero : Bool) (policy : Policy) (ops : MathOps) (link : Link)
    (queue : List Callback) (dt : ℚ) (st : GazeboSimpleController) : Double :=
  rawForceZDouble negZero
    (Double.finite (tickInput policy ops link queue dt st).mass)
    (Double.finite (velocityZOutput policy dt (tickInput policy ops link queue dt st)))
    (Double.finite (gravityOf ops link (tickInput policy ops link queue dt st)))
    (Double.finite (gravityDot ops link (tickInput policy ops link queue dt st)))

/-- The vertical force that an executed tick leaves in `force.z`, with the special values of
`load_factor`: zero in an idle tick, the limited raw force in a running one. -/
def tickForceZDouble (negZero : Bool) (policy : Policy) (ops : MathOps) (link : Link)
    (queue : List Callback) (dt : ℚ) (st : GazeboSimpleController) : Double :=
  if (tickInput policy ops link queue dt st).running_ then
    match policy with
    | .attitudeRate =>
      attitudeRateLimitDouble (Double.finite (tickInput policy ops link queue dt st).max_force_)
        (tickRawForceZDouble negZero policy ops link queue dt st)
    | .positionCascade =>
      saturateVerticalDouble (Double.finite (tickInput policy ops link queue dt st).max_force_)
        (tickRawForceZDouble negZero policy ops link queue dt st)
  else Double.finite 0

end GazeboSimpleController

/-! ## Doubles with their rounding -/

/-- Rounding of a rational to the nearest integer, ties to the even one. -/
def roundHalfEven (q : ℚ) : ℤ :=
  if q - ⌊q⌋ < 1 / 2 then ⌊q⌋
  else if q - ⌊q⌋ > 1 / 2 then ⌊q⌋ + 1
  else if ⌊q⌋ % 2 = 0 then ⌊q⌋ else ⌊q⌋ + 1

/-- The number of halvings that bring `n` below 2, with `fuel` steps at most: the binary
logarithm of `n`, rounded down, when `fuel` is at least that. -/
def log2Fuel : ℕ → ℕ → ℕ
  | 0, _ => 0
  | fuel + 1, n => if n < 2 then 0 else log2Fuel fuel (n / 2) + 1

/-- The binary exponent of a non-zero rational: the `e` with `2 ^ e <= |q| < 2 ^ (e + 1)`. -/
def binade (q : ℚ) : ℤ :=
  if (2 : ℚ) ^ ((log2Fuel q.num.natAbs q.num.natAbs : ℤ) - (log2Fuel q.den q.den : ℤ)) ≤ |q| then
    (log2Fuel q.num.natAbs q.num.natAbs : ℤ) - (log2Fuel q.den q.den : ℤ)
  else (log2Fuel q.num.natAbs q.num.natAbs : ℤ) - (log2Fuel q.den q.den : ℤ) - 1

/-- The `double` nearest to a rational (binary64, round to nearest, ties to even): 53
significant bits, exponents from `-1022`, subnormals below. Overflow is not modelled: the
function is meant for magnitudes below `2 ^ 1024`. -/
def roundDouble (q : ℚ) : ℚ :=
  if q = 0 then 0
  else roundHalfEven (q / 2 ^ (max (binade q) (-1022) - 52)) * 2 ^ (max (binade q) (-1022) - 52)

namespace GazeboSimpleController.PIDController

/-- The member function `PIDController::update` (source lines 672-693) with the rounding of
every double operation: each sum, difference, product and quotient is rounded to the nearest
double. The fields and the arguments are doubles. -/
def updateRounded (c : PIDController) (new_input x dx dt : ℚ) : PIDController × ℚ :=
  -- limit command
  let new_input :=
    if c.limit > 0 ∧ |new_input| > c.limit then
      roundDouble ((if new_input < 0 then -1 else 1) * c.limit)
    else new_input
  -- filter command
  let dinput :=
    if roundDouble (dt + c.time_constant) > 0 then
      roundDouble (roundDouble (new_input - c.input) / roundDouble (dt + c.time_constant))
    else c.dinput
  let input :=
    if roundDouble (dt + c.time_constant) > 0 then
      roundDouble (roundDouble (roundDouble (dt * new_input)
        + roundDouble (c.time_constant * c.input)) / roundDouble (dt + c.time_constant))
    else c.input
  -- update proportional, differential and integral errors
  let p := roundDouble (input - x)
  let d := roundDouble (dinput - dx)
  let i := roundDouble (c.i + roundDouble (dt * p))
  -- update control output
  let output :=
    roundDouble (roundDouble (roundDouble (c.gain_p * p) + roundDouble (c.gain_d * d))
      + roundDouble (c.gain_i * i))
  ({ c with input := input, dinput := dinput, p := p, d := d, i := i, output := output }, output)

end GazeboSimpleController.PIDController

/-- The reset set named by the shutdown scenario of the specification: roll, pitch, yaw,
roll-rate, pitch-rate, yaw-rate, velocity-x and velocity-y. -/
def resetSet : List Axis :=
  [.roll, .pitch, .yaw, .roll_vel, .pitch_vel, .yaw_vel, .velocity_x, .velocity_y]

/-- The controllers that the idle branch of an executed tick resets, in the order of the source
(lines 536-544). -/
def idleResetSet : List Axis :=
  [.roll, .pitch, .yaw, .roll_vel, .pitch_vel, .yaw_vel, .velocity_x, .velocity_y, .velocity_z]

/-- The controllers that the idle branch of an executed tick does not name: the three position
controllers. -/
def idleKeptSet : List Axis := [.position_x, .position_y, .position_z]

/-- Whether a pending entry is an IMU message. -/
def Callback.isImu : Callback → Bool
  | .imu _ => true
  | _ => false

/-- Whether a pending entry is a state-feed message. -/
def Callback.isState : Callback → Bool
  | .state _ => true
  | _ => false

/-! ## Example objects -/

namespace Examples

open GazeboSimpleController

/-- The controller of the saturation example: `limit = 2`, a filter time constant, gains and a
runtime state that are all non-trivial. -/
def saturationExample : PIDController :=
  { gain_p := 3, gain_d := 1, gain_i := 2, time_constant := 1 / 10, limit := 2,
    input := 1 / 2, dinput := 0, output := 0, p := 0, i := 1, d := 0 }

/-- A pure integrator before its reset: `gain_i = 1`, `gain_p = gain_d = 0`, no filter, no limit,
and a runtime state left over from earlier use. -/
def integratorExample : PIDController :=
  { gain_p := 0, gain_d := 0, gain_i := 1, time_constant := 0, limit := -1,
    input := 7, dinput := 3, output := 5, p := 2, i := 4, d := 1 }

/-- Ten calls with setpoint `3 / 2` and measured value `1 / 2`. -/
def tenCalls : List (ℚ × ℚ × ℚ) := List.replicate 10 (3 / 2, 1 / 2, 0)

/-- Vector operations that are exact on the inputs of the examples: identity rotations, zero
Euler angles, the length of an axis-aligned vector, and `cos 0 = 1`, `sin 0 = 0`. -/
def exampleOps : MathOps :=
  { euler := fun _ => Vector3.zero
    rotateVector := fun _ v => v
    rotateVectorReverse := fun _ v => v
    length := fun v => |v.x| + |v.y| + |v.z|
    cos := fun _ => 1
    sin := fun _ => 0 }

/-- A body at rest at the origin, under a gravity of `9.8` along `-z`. -/
def exampleLink : Link :=
  { worldPose := Pose.reset
    worldLinearVel := Vector3.zero
    worldAngularVel := Vector3.zero
    worldAngularAccel := Vector3.zero
    gravity := ⟨0, 0, -9.8⟩
    cog := Vector3.zero }

/-- A proportional controller with unit gain, no filter and no limit, in its reset state. -/
def unitPID : PIDController :=
  { gain_p := 1, gain_d := 0, gain_i := 0, time_constant := 0, limit := -1,
    input := 0, dinput := 0, output := 0, p := 0, i := 0, d := 0 }

/-- A bank of twelve unit-gain controllers. -/
def exampleBank : Controllers :=
  { roll_vel := unitPID, pitch_vel := unitPID, yaw_vel := unitPID, roll := unitPID,
    pitch := unitPID, yaw := unitPID, velocity_x := unitPID, velocity_y := unitPID,
    velocity_z := unitPID, position_x := unitPID, position_y := unitPID, position_z := unitPID }

/-- An idle controller object with `auto_engage = true`, `max_force = 10`, `max_torque = 1`, no
state or IMU feed, and a position command of `0.15` in `linear.z` and `5` in `angular.x`. -/
def exampleState : GazeboSimpleController :=
  { imu_topic_ := ""
    state_topic_ := ""
    max_force_ := 10
    max_torque_ := 1
    auto_engage_ := true
    inertia := ⟨1, 1, 1⟩
    mass := 1
    controllers_ := exampleBank
    controller_callback_ := ⟨Vector3.zero, Vector3.zero⟩
    position_command_ := ⟨⟨0, 0, 0.15⟩, ⟨5, 0, 0⟩⟩
    velocity_command_ := ⟨Vector3.zero, Vector3.zero⟩
    real_velocity_ := ⟨Vector3.zero, Vector3.zero⟩
    pose := Pose.reset
    euler := Vector3.zero
    velocity := Vector3.zero
    acceleration := Vector3.zero
    angular_velocity := Vector3.zero
    angular_accelaration := Vector3.zero
    state_stamp := 0
    force := Vector3.zero
    torque := Vector3.zero
    running_ := false }

/-- The object `exampleState` with the motors engaged. -/
def runningState : GazeboSimpleController := { exampleState with running_ := true }

/-- The object `runningState` with `auto_engage = false`. -/
def manualState : GazeboSimpleController := { runningState with auto_engage_ := false }

/-- The reconfiguration message with selector `3` and payload `(2.0, 0.1, 0.01, 0.05)`. -/
def selectorThree : Twist := ⟨⟨3, 2.0, 0.1⟩, ⟨0.01, 0.05, 0⟩⟩

/-- A reconfiguration message with the non-integral selector `2.5`. -/
def selectorHalf : Twist := ⟨⟨2.5, 2.0, 0.1⟩, ⟨0.01, 0.05, 0⟩⟩

/-- An idle object with `auto_engage = false` whose velocity-z and position-z controllers carry
a runtime state left over from earlier use (integral 4). -/
def idleUsedState : GazeboSimpleController :=
  { exampleState with
    auto_engage_ := false
    controllers_ :=
      { exampleBank with velocity_z := integratorExample, position_z := integratorExample } }

/-- The object `exampleState` with both an IMU feed and a state feed configured. -/
def feedState : GazeboSimpleController :=
  { exampleState with imu_topic_ := "imu", state_topic_ := "state" }

/-- A state-feed message: position `(1, 2, 3)`, a half turn about x, linear velocity `(1, 0, 0)`
and angular velocity `(0, 0, 1)`. -/
def stateMsg : Odometry :=
  { stamp := 1000
    position := ⟨1, 2, 3⟩
    orientation := ⟨0, 1, 0, 0⟩
    twist_linear := ⟨1, 0, 0⟩
    twist_angular := ⟨0, 0, 1⟩ }

/-- An IMU message: a half turn about z and angular velocity `(0, 1, 0)`. -/
def imuMsg : Imu :=
  { orientation := ⟨0, 0, 0, 1⟩
    angular_velocity := ⟨0, 1, 0⟩ }

/-- A running object hovering at rest: no command, weight `mass * 9.8 = 1`, `max_force = 10`. -/
def hoverState : GazeboSimpleController :=
  { runningState with
    mass := 5 / 49
    position_command_ := ⟨Vector3.zero, Vector3.zero⟩ }

/-- Three admissible calls: an `update` above the limit, an `updateGains` that removes the
filter, and an `update` below the negative limit. -/
def filterCalls : List PIDController.Call :=
  [.update 5 0 0 (1 / 50), .updateGains 1 1 1 0, .update (-7) 0 0 1]

/-- A world without gravity: the link `exampleLink` with a zero gravity vector. -/
def zeroGravityLink : Link := { exampleLink with gravity := Vector3.zero }

/-- A controller with `limit = 7`, no filter and zero gains, in use. -/
def sevenLimitExample : PIDController :=
  { gain_p := 0, gain_d := 0, gain_i := 0, time_constant := 0, limit := 7,
    input := 3, dinput := 0, output := 0, p := 0, i := 0, d := 0 }

end Examples

/-! # Theorems -/

/-! ## PIDController -/

section PID

open GazeboSimpleController GazeboSimpleController.PIDController Examples

theorem limitCommand_eq_sign (limit s : ℚ) (h : limit > 0 ∧ |s| > limit) :
    (if s < 0 then (-1 : ℚ) else 1) * limit = ((SignType.sign s : SignType) : ℚ) * limit := by
  have hs : s ≠ 0 := by
    rintro rfl
    have h2 := h.2
    simp only [abs_zero] at h2
    linarith [h.1]
  rcases lt_or_gt_of_ne hs with hneg | hpos
  · simp [hneg, sign_neg hneg]
  · have : ¬ s < 0 := not_lt.mpr hpos.le
    simp [this, sign_pos hpos]

/-- C1: for every controller state and every `(setpoint, measured_value, measured_derivative,
dt)`, `update` computes exactly the reference law `updateSpec` (clamp to `sign * limit`, filter
when `dt + time_constant > 0` and hold otherwise, errors, unconditional integration), and the
returned value is the stored output `gain_p * p + gain_d * d + gain_i * integral'`. -/
theorem update_eq_updateSpec (c : PIDController) (setpoint measured_value measured_derivative dt : ℚ) :
    c.update setpoint measured_value measured_derivative dt
        = c.updateSpec setpoint measured_value measured_derivative dt
      ∧ (c.update setpoint measured_value measured_derivative dt).2
        = (c.update setpoint measured_value measured_derivative dt).1.output
      ∧ (c.update setpoint measured_value measured_derivative dt).1.output
        = c.gain_p * (c.update setpoint measured_value measured_derivative dt).1.p
          + c.gain_d * (c.update setpoint measured_value measured_derivative dt).1.d
          + c.gain_i * (c.update setpoint measured_value measured_derivative dt).1.i
      ∧ (c.update setpoint measured_value measured_derivative dt).1.i
        = c.i + dt * (c.update setpoint measured_value measured_derivative dt).1.p := by
  refine ⟨?_, rfl, rfl, rfl⟩
  have hl : limitCommand c.limit setpoint
      = if c.limit > 0 ∧ |setpoint| > c.limit then
          ((SignType.sign setpoint : SignType) : ℚ) * c.limit else setpoint := by
    unfold limitCommand
    by_cases h : c.limit > 0 ∧ |setpoint| > c.limit
    · rw [if_pos h, if_pos h]
      exact limitCommand_eq_sign c.limit setpoint h
    · rw [if_neg h, if_neg h]
  unfold update updateSpec
  simp only [hl]

/-- C2: with `limit > 0` and `|setpoint| > limit`, `update(setpoint, x, dx, dt)` returns the
same output and leaves the same state as `update(sign(setpoint) * limit, x, dx, dt)`, for
positive and for negative setpoints. -/
theorem update_saturated (c : PIDController) (setpoint x dx dt : ℚ)
    (hlimit : c.limit > 0) (hover : |setpoint| > c.limit) :
    c.update setpoint x dx dt
      = c.update (((SignType.sign setpoint : SignType) : ℚ) * c.limit) x dx dt := by
  have h1 : limitCommand c.limit setpoint = ((SignType.sign setpoint : SignType) : ℚ) * c.limit := by
    unfold limitCommand
    rw [if_pos ⟨hlimit, hover⟩]
    exact limitCommand_eq_sign c.limit setpoint ⟨hlimit, hover⟩
  have hs : setpoint ≠ 0 := by
    rintro rfl
    simp only [abs_zero] at hover
    linarith
  have h2 : limitCommand c.limit (((SignType.sign setpoint : SignType) : ℚ) * c.limit)
      = ((SignType.sign setpoint : SignType) : ℚ) * c.limit := by
    unfold limitCommand
    have habs : |((SignType.sign setpoint : SignType) : ℚ) * c.limit| = c.limit := by
      rcases lt_or_gt_of_ne hs with hneg | hpos
      · simp [sign_neg hneg, abs_of_pos hlimit]
      · simp [sign_pos hpos, abs_of_pos hlimit]
    rw [if_neg]
    rw [habs]
    exact fun h => lt_irrefl _ h.2
  unfold update
  simp only [h1, h2]

/-- C2, witness: with `limit = 2`, setpoint `5` behaves as setpoint `2` (which is
`sign 5 * limit`). -/
theorem update_saturated_witness :
    saturationExample.limit > 0 ∧ |(5 : ℚ)| > saturationExample.limit
      ∧ saturationExample.update 5 1 0 (1 / 50)
        = saturationExample.update (((SignType.sign (5 : ℚ) : SignType) : ℚ) * saturationExample.limit)
            1 0 (1 / 50)
      ∧ ((SignType.sign (5 : ℚ) : SignType) : ℚ) * saturationExample.limit = 2 :=
  ⟨by norm_num [saturationExample], by norm_num [saturationExample],
   update_saturated saturationExample 5 1 0 (1 / 50) (by norm_num [saturationExample])
     (by norm_num [saturationExample]),
   by norm_num [saturationExample]⟩

theorem updates_integral (dt : ℚ) (calls : List (ℚ × ℚ × ℚ)) :
    ∀ c : PIDController, seesUnitError dt c calls →
      (updates dt c calls).1.i = c.i + calls.length * dt
        ∧ (updates dt c calls).1.gain_i = c.gain_i
        ∧ (updates dt c calls).1.gain_p = c.gain_p
        ∧ (updates dt c calls).1.gain_d = c.gain_d := by
  induction calls with
  | nil => intro c _; simp [updates]
  | cons a rest ih =>
    intro c h
    obtain ⟨s, x, dx⟩ := a
    obtain ⟨h1, h2⟩ := h
    obtain ⟨hi, hgi, hgp, hgd⟩ := ih (update c s x dx dt).1 h2
    have hstep : (update c s x dx dt).1.i = c.i + dt * (update c s x dx dt).1.p := rfl
    rw [h1] at hstep
    refine ⟨?_, ?_, ?_, ?_⟩
    · simp only [updates, hi, hstep, List.length_cons]
      push_cast
      ring
    · simp only [updates, hgi]; rfl
    · simp only [updates, hgp]; rfl
    · simp only [updates, hgd]; rfl

theorem updates_getLast (dt : ℚ) (calls : List (ℚ × ℚ × ℚ)) :
    ∀ c : PIDController, calls ≠ [] → (updates dt c calls).2.getLast? = some (updates dt c calls).1.output := by
  induction calls with
  | nil => intro c h; exact absurd rfl h
  | cons a rest ih =>
    intro c _
    obtain ⟨s, x, dx⟩ := a
    cases rest with
    | nil => simp [updates, update]
    | cons b rest2 =>
      have := ih (update c s x dx dt).1 (List.cons_ne_nil _ _)
      simp only [updates] at this ⊢
      rw [List.getLast?_cons_cons]
      exact this

theorem updates_output (dt : ℚ) (calls : List (ℚ × ℚ × ℚ)) :
    ∀ c : PIDController, calls ≠ [] → seesUnitError dt c calls →
      (updates dt c calls).1.output
        = c.gain_p * 1 + c.gain_d * (updates dt c calls).1.d + c.gain_i * (updates dt c calls).1.i := by
  induction calls with
  | nil => intro c h; exact absurd rfl h
  | cons a rest ih =>
    intro c _ h
    obtain ⟨s, x, dx⟩ := a
    obtain ⟨h1, h2⟩ := h
    cases rest with
    | nil =>
      have ho : (update c s x dx dt).1.output
          = c.gain_p * (update c s x dx dt).1.p + c.gain_d * (update c s x dx dt).1.d
            + c.gain_i * (update c s x dx dt).1.i := rfl
      rw [h1] at ho
      simpa [updates] using ho
    | cons b rest2 =>
      have := ih (update c s x dx dt).1 (List.cons_ne_nil _ _) h2
      have hg1 : (update c s x dx dt).1.gain_p = c.gain_p := rfl
      have hg2 : (update c s x dx dt).1.gain_d = c.gain_d := rfl
      have hg3 : (update c s x dx dt).1.gain_i = c.gain_i := rfl
      rw [hg1, hg2, hg3] at this
      simpa only [updates] using this

/-- C3: starting from a freshly reset controller with `gain_i = 1` and `gain_p = gain_d = 0`,
for `n >= 1` successive `update` calls with the same `dt > 0` that each see a proportional error
`p` of exactly 1, the output returned by the `n`-th call is `n * dt`. -/
theorem integrator_accumulation (c0 : PIDController) (dt : ℚ) (calls : List (ℚ × ℚ × ℚ))
    (hi : c0.gain_i = 1) (hp : c0.gain_p = 0) (hd : c0.gain_d = 0)
    (hn : 1 ≤ calls.length) (_hdt : 0 < dt)
    (hunit : seesUnitError dt c0.reset calls) :
    (updates dt c0.reset calls).2.getLast? = some ((calls.length : ℚ) * dt) := by
  have hne : calls ≠ [] := by
    rintro rfl
    simp at hn
  rw [updates_getLast dt calls c0.reset hne, updates_output dt calls c0.reset hne hunit,
    (updates_integral dt calls c0.reset hunit).1]
  have h1 : c0.reset.gain_i = 1 := hi
  have h2 : c0.reset.gain_p = 0 := hp
  have h3 : c0.reset.gain_d = 0 := hd
  have h4 : c0.reset.i = 0 := rfl
  rw [h1, h2, h3, h4]
  congr 1
  ring

/-- C3, witness: `n = 10`, `dt = 0.02`, no filter, setpoint minus measured value equal to 1:
the tenth output is `0.2`. -/
theorem integrator_accumulation_witness :
    (updates (1 / 50) integratorExample.reset tenCalls).2.getLast? = some ((10 : ℚ) * (1 / 50))
      ∧ (10 : ℚ) * (1 / 50) = 0.2 :=
  ⟨integrator_accumulation integratorExample (1 / 50) tenCalls rfl rfl rfl (by decide)
      (by norm_num)
      (by norm_num [seesUnitError, tenCalls, integratorExample, reset, update, limitCommand,
        List.replicate]),
    by norm_num⟩

end PID

/-! ## Reconfiguration -/

section Reconfiguration

open GazeboSimpleController GazeboSimpleController.PIDController Examples

theorem ControllerCallback_controllers (st : GazeboSimpleController) (m : Twist) :
    (ControllerCallback st m).controllers_ =
      { roll_vel := if m.linear.x = 7 then
          st.controllers_.roll_vel.updateGains m.linear.y m.linear.z m.angular.x m.angular.y
          else st.controllers_.roll_vel
        pitch_vel := if m.linear.x = 9 then
          st.controllers_.pitch_vel.updateGains m.linear.y m.linear.z m.angular.x m.angular.y
          else st.controllers_.pitch_vel
        yaw_vel := if m.linear.x = 11 then
          st.controllers_.yaw_vel.updateGains m.linear.y m.linear.z m.angular.x m.angular.y
          else st.controllers_.yaw_vel
        roll := if m.linear.x = 8 then
          st.controllers_.roll.updateGains m.linear.y m.linear.z m.angular.x m.angular.y
          else st.controllers_.roll
        pitch := if m.linear.x = 10 then
          st.controllers_.pitch.updateGains m.linear.y m.linear.z m.angular.x m.angular.y
          else st.controllers_.pitch
        yaw := if m.linear.x = 12 then
          st.controllers_.yaw.updateGains m.linear.y m.linear.z m.angular.x m.angular.y
          else st.controllers_.yaw
        velocity_x := if m.linear.x = 1 then
          st.controllers_.velocity_x.updateGains m.linear.y m.linear.z m.angular.x m.angular.y
          else st.controllers_.velocity_x
        velocity_y := if m.linear.x = 3 then
          st.controllers_.velocity_y.updateGains m.linear.y m.linear.z m.angular.x m.angular.y
          else st.controllers_.velocity_y
        velocity_z := if m.linear.x = 5 then
          st.controllers_.velocity_z.updateGains m.linear.y m.linear.z m.angular.x m.angular.y
          else st.controllers_.velocity_z
        position_x := if m.linear.x = 2 then
          st.controllers_.position_x.updateGains m.linear.y m.linear.z m.angular.x m.angular.y
          else st.controllers_.position_x
        position_y := if m.linear.x = 4 then
          st.controllers_.position_y.updateGains m.linear.y m.linear.z m.angular.x m.angular.y
          else st.controllers_.position_y
        position_z := if m.linear.x = 6 then
          st.controllers_.position_z.updateGains m.linear.y m.linear.z m.angular.x m.angular.y
          else st.controllers_.position_z } := by
  unfold ControllerCallback
  by_cases h1 : m.linear.x = 1
  · simp only [h1]; norm_num
  by_cases h2 : m.linear.x = 2
  · simp only [h2]; norm_num
  by_cases h3 : m.linear.x = 3
  · simp only [h3]; norm_num
  by_cases h4 : m.linear.x = 4
  · simp only [h4]; norm_num
  by_cases h5 : m.linear.x = 5
  · simp only [h5]; norm_num
  by_cases h6 : m.linear.x = 6
  · simp only [h6]; norm_num
  by_cases h7 : m.linear.x = 7
  · simp only [h7]; norm_num
  by_cases h8 : m.linear.x = 8
  · simp only [h8]; norm_num
  by_cases h9 : m.linear.x = 9
  · simp only [h9]; norm_num
  by_cases h10 : m.linear.x = 10
  · simp only [h10]; norm_num
  by_cases h11 : m.linear.x = 11
  · simp only [h11]; norm_num
  by_cases h12 : m.linear.x = 12
  · simp only [h12]; norm_num
  simp only [if_neg h1, if_neg h2, if_neg h3, if_neg h4, if_neg h5, if_neg h6, if_neg h7,
    if_neg h8, if_neg h9, if_neg h10, if_neg h11, if_neg h12]

/-- C5: for every bank and every reconfiguration message whose selector `linear.x` is one of
1..12, `ControllerCallback` replaces `(gain_p, gain_d, gain_i, time_constant)` of exactly the
controller that the fixed numbering `selectorAxis` gives by the payload
`(linear.y, linear.z, angular.x, angular.y)`, leaves the limit and the runtime state of that
controller unchanged, and leaves every field of the other eleven controllers unchanged. -/
theorem ControllerCallback_selects (st : GazeboSimpleController) (msg : Twist) (k : ℕ)
    (hlo : 1 ≤ k) (hhi : k ≤ 12) (hsel : msg.linear.x = (k : ℚ)) :
    ∃ a : Axis, selectorAxis k = some a
      ∧ (ControllerCallback st msg).controllers_.get a
        = { st.controllers_.get a with
            gain_p := msg.linear.y, gain_d := msg.linear.z, gain_i := msg.angular.x,
            time_constant := msg.angular.y }
      ∧ ∀ b : Axis, b ≠ a →
        (ControllerCallback st msg).controllers_.get b = st.controllers_.get b := by
  rw [ControllerCallback_controllers]
  interval_cases k
  all_goals
    simp only [selectorAxis, Option.some.injEq, exists_eq_left']
    refine ⟨?_, ?_⟩
    · norm_num [hsel, Controllers.get, updateGains]
    · intro b hb
      cases b <;> first
        | exact absurd rfl hb
        | norm_num [hsel, Controllers.get]

/-- C5, witness: selector 3 with payload `(2.0, 0.1, 0.01, 0.05)` sets the four configuration
fields of velocity-y and changes no other controller. -/
theorem ControllerCallback_selects_witness :
    selectorAxis 3 = some Axis.velocity_y ∧ ∃ a : Axis, selectorAxis 3 = some a
      ∧ (ControllerCallback exampleState selectorThree).controllers_.get a
        = { exampleState.controllers_.get a with
            gain_p := selectorThree.linear.y, gain_d := selectorThree.linear.z,
            gain_i := selectorThree.angular.x, time_constant := selectorThree.angular.y }
      ∧ ∀ b : Axis, b ≠ a →
        (ControllerCallback exampleState selectorThree).controllers_.get b
          = exampleState.controllers_.get b :=
  ⟨rfl, ControllerCallback_selects exampleState selectorThree 3 (by decide) (by decide)
    (by norm_num [selectorThree])⟩

/-- C6: for every bank and every reconfiguration message whose selector `linear.x` is none of
the integers 1..12 (zero, negative, above 12 or non-integral), `ControllerCallback` leaves the
configuration and the runtime state of all twelve controllers unchanged. -/
theorem ControllerCallback_ignores (st : GazeboSimpleController) (msg : Twist)
    (hsel : ∀ k : ℕ, 1 ≤ k → k ≤ 12 → msg.linear.x ≠ (k : ℚ)) :
    (ControllerCallback st msg).controllers_ = st.controllers_ := by
  rw [ControllerCallback_controllers]
  have h1 := hsel 1 (by decide) (by decide)
  have h2 := hsel 2 (by decide) (by decide)
  have h3 := hsel 3 (by decide) (by decide)
  have h4 := hsel 4 (by decide) (by decide)
  have h5 := hsel 5 (by decide) (by decide)
  have h6 := hsel 6 (by decide) (by decide)
  have h7 := hsel 7 (by decide) (by decide)
  have h8 := hsel 8 (by decide) (by decide)
  have h9 := hsel 9 (by decide) (by decide)
  have h10 := hsel 10 (by decide) (by decide)
  have h11 := hsel 11 (by decide) (by decide)
  have h12 := hsel 12 (by decide) (by decide)
  simp only [Nat.cast_ofNat, Nat.cast_one] at h1 h2 h3 h4 h5 h6 h7 h8 h9 h10 h11 h12
  simp only [if_neg h1, if_neg h2, if_neg h3, if_neg h4, if_neg h5, if_neg h6, if_neg h7,
    if_neg h8, if_neg h9, if_neg h10, if_neg h11, if_neg h12]

/-- C6, witness: the non-integral selector `2.5` changes no controller. -/
theorem ControllerCallback_ignores_witness :
    (∀ k : ℕ, 1 ≤ k → k ≤ 12 → selectorHalf.linear.x ≠ (k : ℚ))
      ∧ (ControllerCallback exampleState selectorHalf).controllers_ = exampleState.controllers_ :=
  have h : ∀ k : ℕ, 1 ≤ k → k ≤ 12 → selectorHalf.linear.x ≠ (k : ℚ) := by
    intro k hlo hhi
    interval_cases k <;> norm_num [selectorHalf]
  ⟨h, ControllerCallback_ignores exampleState selectorHalf h⟩

end Reconfiguration

/-! ## The control tick -/

section Tick

open GazeboSimpleController GazeboSimpleController.PIDController Examples

theorem dispatch_config (ops : MathOps) (st : GazeboSimpleController) (cb : Callback) :
    (dispatch ops st cb).auto_engage_ = st.auto_engage_
      ∧ (dispatch ops st cb).max_force_ = st.max_force_
      ∧ (dispatch ops st cb).max_torque_ = st.max_torque_ := by
  cases cb <;> simp only [dispatch, ControllerCallback, PositionCallback, VelocityCallback,
    ImuCallback, StateCallback, EngageCallback, ShutdownCallback] <;> first
    | (split_ifs <;> simp)
    | simp

theorem callAvailable_config (ops : MathOps) (queue : List Callback) :
    ∀ st : GazeboSimpleController,
      (callAvailable ops st queue).auto_engage_ = st.auto_engage_
        ∧ (callAvailable ops st queue).max_force_ = st.max_force_
        ∧ (callAvailable ops st queue).max_torque_ = st.max_torque_ := by
  induction queue with
  | nil => intro st; exact ⟨rfl, rfl, rfl⟩
  | cons cb rest ih =>
    intro st
    have h := ih (dispatch ops st cb)
    have h2 := dispatch_config ops st cb
    simp only [callAvailable, List.foldl_cons] at h ⊢
    exact ⟨h.1.trans h2.1, h.2.1.trans h2.2.1, h.2.2.trans h2.2.2⟩

theorem dispatch_running (ops : MathOps) (st : GazeboSimpleController) (cb : Callback)
    (h : cb.isTrigger = false) : (dispatch ops st cb).running_ = st.running_ := by
  cases cb <;> simp only [dispatch, ControllerCallback, PositionCallback, VelocityCallback,
    ImuCallback, StateCallback] <;> first
    | (split_ifs <;> rfl)
    | rfl
    | simp [Callback.isTrigger] at h

theorem callAvailable_running (ops : MathOps) (queue : List Callback) :
    ∀ st : GazeboSimpleController, (∀ cb ∈ queue, cb.isTrigger = false) →
      (callAvailable ops st queue).running_ = st.running_ := by
  induction queue with
  | nil => intro st _; rfl
  | cons cb rest ih =>
    intro st h
    have h1 := ih (dispatch ops st cb) (fun c hc => h c (List.mem_cons_of_mem _ hc))
    have h2 := dispatch_running ops st cb (h cb (List.mem_cons_self _ _))
    simp only [callAvailable, List.foldl_cons] at h1 ⊢
    exact h1.trans h2

theorem readLink_frame (policy : Policy) (ops : MathOps) (link : Link) (dt : ℚ)
    (st : GazeboSimpleController) :
    (readLink policy ops link dt st).running_ = st.running_
      ∧ (readLink policy ops link dt st).auto_engage_ = st.auto_engage_
      ∧ (readLink policy ops link dt st).position_command_ = st.position_command_
      ∧ (readLink policy ops link dt st).max_force_ = st.max_force_
      ∧ (readLink policy ops link dt st).max_torque_ = st.max_torque_
      ∧ (readLink policy ops link dt st).controllers_ = st.controllers_ := by
  cases policy <;> simp only [readLink] <;> split_ifs <;> simp

theorem autoEngage_running (st : GazeboSimpleController) :
    (autoEngage st).running_ = true
      ↔ st.running_ = true ∨ (st.auto_engage_ = true ∧ st.position_command_.linear.z > 0.1) := by
  unfold autoEngage
  cases hr : st.running_ <;> cases ha : st.auto_engage_ <;> simp [hr]
  split_ifs with h <;> simp [hr, h]

theorem autoEngage_frame (st : GazeboSimpleController) :
    (autoEngage st).max_force_ = st.max_force_
      ∧ (autoEngage st).max_torque_ = st.max_torque_
      ∧ (autoEngage st).controllers_ = st.controllers_ := by
  unfold autoEngage
  split_ifs <;> simp

theorem controlStep_running (policy : Policy) (ops : MathOps) (link : Link) (dt : ℚ)
    (st : GazeboSimpleController) :
    (controlStep policy ops link dt st).running_
      = (autoEngage (readLink policy ops link dt st)).running_ := by
  unfold controlStep
  simp only [clearWrench]
  cases hr : (autoEngage (readLink policy ops link dt st)).running_
  · simp [idleReset]
  · cases policy <;> simp [attitudeRateLaw, positionCascadeLaw, positionCascadeRaw, hr]

/-- C7: for every executed control tick (`fired`, `dt > 0`) whose pending callbacks contain no
engage or shutdown trigger, the engage state after the tick is Running if and only if it was
Running before the tick or `auto_engage` is enabled and the position command read by the tick
has `linear.z > 0.1`. In particular a tick never moves Running to Idle. -/
theorem engage_after_tick (policy : Policy) (ops : MathOps) (link : Link)
    (queue : List Callback) (dt : ℚ) (st : GazeboSimpleController)
    (hdt : dt > 0) (hq : ∀ cb ∈ queue, cb.isTrigger = false) :
    (Update policy ops link queue true dt st).running_ = true
      ↔ st.running_ = true
        ∨ (st.auto_engage_ = true
          ∧ (callAvailable ops st queue).position_command_.linear.z > 0.1) := by
  unfold Update
  simp only [hdt, and_self, if_true]
  rw [controlStep_running, autoEngage_running]
  obtain ⟨h1, h2, h3, -⟩ := readLink_frame policy ops link dt (callAvailable ops st queue)
  rw [h1, h2, h3, callAvailable_running ops queue st hq, (callAvailable_config ops queue st).1]



/-- C7, witness: Idle with `auto_engage = true` and `position_command.linear.z = 0.15` is Running
after one tick. -/
theorem engage_after_tick_witness :
    exampleState.running_ = false ∧ exampleState.auto_engage_ = true
      ∧ exampleState.position_command_.linear.z = 0.15
      ∧ (Update Policy.positionCascade exampleOps exampleLink [] true (1 / 100) exampleState).running_
        = true :=
  ⟨rfl, rfl, rfl,
   (engage_after_tick Policy.positionCascade exampleOps exampleLink [] (1 / 100) exampleState
      (by norm_num) (by simp)).mpr
      (Or.inr ⟨rfl, by norm_num [callAvailable, exampleState]⟩)⟩

theorem controlStep_of_idle (policy : Policy) (ops : MathOps) (link : Link) (dt : ℚ)
    (st : GazeboSimpleController)
    (h : (autoEngage (readLink policy ops link dt st)).running_ = false) :
    controlStep policy ops link dt st
      = idleReset (clearWrench (autoEngage (readLink policy ops link dt st))) := by
  unfold controlStep
  simp [clearWrench, h]

theorem controlStep_positionCascade_of_running (ops : MathOps) (link : Link) (dt : ℚ)
    (st : GazeboSimpleController)
    (h : (autoEngage (readLink Policy.positionCascade ops link dt st)).running_ = true) :
    controlStep Policy.positionCascade ops link dt st
      = positionCascadeLaw dt
          (gravityOf ops link (autoEngage (readLink Policy.positionCascade ops link dt st)))
          (loadFactorOf ops link (autoEngage (readLink Policy.positionCascade ops link dt st)))
          (clearWrench (autoEngage (readLink Policy.positionCascade ops link dt st))) := by
  have hc : (clearWrench (autoEngage (readLink Policy.positionCascade ops link dt st))).running_
      = true := h
  unfold controlStep
  simp only [hc, if_true]

theorem controlStep_attitudeRate_of_running (ops : MathOps) (link : Link) (dt : ℚ)
    (st : GazeboSimpleController)
    (h : (autoEngage (readLink Policy.attitudeRate ops link dt st)).running_ = true) :
    controlStep Policy.attitudeRate ops link dt st
      = attitudeRateLaw ops dt
          (gravityOf ops link (autoEngage (readLink Policy.attitudeRate ops link dt st)))
          (loadFactorOf ops link (autoEngage (readLink Policy.attitudeRate ops link dt st)))
          (clearWrench (autoEngage (readLink Policy.attitudeRate ops link dt st))) := by
  have hc : (clearWrench (autoEngage (readLink Policy.attitudeRate ops link dt st))).running_
      = true := h
  unfold controlStep
  simp only [hc, if_true]

/-- C8, as amended: from a Running state, after `ShutdownCallback` the engage state is Idle, and
after the next executed tick (`dt > 0`, no engage or shutdown trigger pending), provided
`auto_engage` is disabled or the position command read by that tick has `linear.z <= 0.1`, each
controller of the reset set has integral 0. -/
theorem shutdown_then_tick (policy : Policy) (ops : MathOps) (link : Link)
    (queue : List Callback) (dt : ℚ) (st : GazeboSimpleController)
    (_hrun : st.running_ = true) (hdt : dt > 0) (hq : ∀ cb ∈ queue, cb.isTrigger = false)
    (hauto : st.auto_engage_ = false
      ∨ (callAvailable ops (ShutdownCallback st) queue).position_command_.linear.z ≤ 0.1) :
    (ShutdownCallback st).running_ = false
      ∧ ∀ a ∈ resetSet,
        ((Update policy ops link queue true dt (ShutdownCallback st)).controllers_.get a).i = 0 := by
  refine ⟨rfl, ?_⟩
  have hidle : (autoEngage (readLink policy ops link dt
      (callAvailable ops (ShutdownCallback st) queue))).running_ = false := by
    rw [Bool.eq_false_iff]
    intro hcon
    rw [autoEngage_running] at hcon
    obtain ⟨h1, h2, h3, -⟩ :=
      readLink_frame policy ops link dt (callAvailable ops (ShutdownCallback st) queue)
    rw [h1, h2, h3, callAvailable_running ops queue _ hq,
      (callAvailable_config ops queue _).1] at hcon
    rcases hcon with hc | ⟨ha, hz⟩
    · exact absurd hc (by simp [ShutdownCallback])
    · rcases hauto with hf | hle
      · have : st.auto_engage_ = true := ha
        rw [hf] at this
        exact absurd this (by simp)
      · exact absurd hz (not_lt.mpr hle)
  unfold Update
  simp only [hdt, and_self, if_true]
  rw [controlStep_of_idle policy ops link dt _ hidle]
  intro a ha
  simp only [resetSet, List.mem_cons, List.mem_singleton, List.not_mem_nil, or_false] at ha
  rcases ha with rfl | rfl | rfl | rfl | rfl | rfl | rfl | rfl <;> rfl

/-- C8 as amended, witness: a Running object with `auto_engage = false`. -/
theorem shutdown_then_tick_witness :
    (ShutdownCallback manualState).running_ = false
      ∧ ∀ a ∈ resetSet,
        ((Update Policy.positionCascade exampleOps exampleLink [] true 1
          (ShutdownCallback manualState)).controllers_.get a).i = 0 :=
  shutdown_then_tick Policy.positionCascade exampleOps exampleLink [] 1 manualState rfl
    (by norm_num) (by simp) (Or.inl rfl)

/-- C8, counterexample: with `auto_engage = true` and `position_command.linear.z = 0.15` the
tick after the shutdown engages the motors again and runs the control law, and the roll
controller, which is in the reset set, has integral 5 after it. -/
theorem shutdown_reengages :
    runningState.running_ = true ∧ (0 : ℚ) < 1
      ∧ (ShutdownCallback runningState).running_ = false
      ∧ Axis.roll ∈ resetSet
      ∧ ((Update Policy.positionCascade exampleOps exampleLink [] true 1
          (ShutdownCallback runningState)).controllers_.get Axis.roll).i = 5
      ∧ ((Update Policy.positionCascade exampleOps exampleLink [] true 1
          (ShutdownCallback runningState)).controllers_.get Axis.roll).i ≠ 0 := by
  have h : ((Update Policy.positionCascade exampleOps exampleLink [] true 1
      (ShutdownCallback runningState)).controllers_.get Axis.roll).i = 5 := by
    norm_num [Update, callAvailable, controlStep, readLink, autoEngage, clearWrench, gravityOf, loadFactorOf, Vector3.Dot, ShutdownCallback,
      runningState, exampleState, exampleOps, exampleLink, exampleBank, unitPID,
      positionCascadeLaw, positionCascadeRaw, Controllers.get, update, limitCommand,
      Vector3.zero, Pose.reset]
  refine ⟨rfl, by norm_num, rfl, by simp [resetSet], h, ?_⟩
  rw [h]
  norm_num







theorem positionCascadeSaturate_force_bound (mf mt : ℚ) (f t : Vector3) (h : mf > 0) :
    |(positionCascadeSaturate mf mt f t).1.z| ≤ mf + 10
      ∧ |(positionCascadeSaturate mf mt f t).1.x| ≤ mf
      ∧ |(positionCascadeSaturate mf mt f t).1.y| ≤ mf := by
  unfold positionCascadeSaturate
  simp only [h, true_and]
  refine ⟨?_, ?_, ?_⟩
  · split_ifs with h1 h2
    · rw [abs_of_pos (by linarith)]
    · rw [show -mf - 10 = -(mf + 10) by ring, abs_neg, abs_of_pos (by linarith)]
    · linarith [not_lt.mp h1]
  · split_ifs with h1 h2
    · rw [abs_of_pos h]
    · rw [abs_neg, abs_of_pos h]
    · exact not_lt.mp h1
  · split_ifs with h1 h2
    · rw [abs_of_pos h]
    · rw [abs_neg, abs_of_pos h]
    · exact not_lt.mp h1

theorem controlStep_positionCascade_force (ops : MathOps) (link : Link) (dt : ℚ)
    (st : GazeboSimpleController) :
    (controlStep Policy.positionCascade ops link dt st).force = Vector3.zero
      ∨ ∃ f t : Vector3, (controlStep Policy.positionCascade ops link dt st).force
          = (positionCascadeSaturate st.max_force_ st.max_torque_ f t).1 := by
  obtain ⟨-, -, -, h4, h5, -⟩ := readLink_frame Policy.positionCascade ops link dt st
  obtain ⟨h6, h7, -⟩ := autoEngage_frame (readLink Policy.positionCascade ops link dt st)
  cases hr : (autoEngage (readLink Policy.positionCascade ops link dt st)).running_
  · left
    rw [controlStep_of_idle _ _ _ _ _ hr]
    rfl
  · right
    rw [controlStep_positionCascade_of_running _ _ _ _ hr]
    refine ⟨(positionCascadeRaw dt
        (gravityOf ops link (autoEngage (readLink Policy.positionCascade ops link dt st)))
        (loadFactorOf ops link (autoEngage (readLink Policy.positionCascade ops link dt st)))
        (clearWrench (autoEngage (readLink Policy.positionCascade ops link dt st)))).force,
      (positionCascadeRaw dt
        (gravityOf ops link (autoEngage (readLink Policy.positionCascade ops link dt st)))
        (loadFactorOf ops link (autoEngage (readLink Policy.positionCascade ops link dt st)))
        (clearWrench (autoEngage (readLink Policy.positionCascade ops link dt st)))).torque, ?_⟩
    rw [← h4, ← h5, ← h6, ← h7]
    rfl

/-- Under the position-cascade policy and with `max_force > 0`, the horizontal components of
the force left by an executed tick are within `max_force`. They do not depend on
`load_factor`. -/
theorem Update_horizontal_force_bound (ops : MathOps) (link : Link) (queue : List Callback)
    (dt : ℚ) (st : GazeboSimpleController) (hmax : st.max_force_ > 0) (hdt : dt > 0) :
    |(Update Policy.positionCascade ops link queue true dt st).force.x| ≤ st.max_force_
      ∧ |(Update Policy.positionCascade ops link queue true dt st).force.y| ≤ st.max_force_ := by
  unfold Update
  simp only [hdt, and_self, if_true]
  obtain ⟨-, hf, -⟩ := callAvailable_config ops queue st
  rcases controlStep_positionCascade_force ops link dt (callAvailable ops st queue) with h | ⟨f, t, h⟩
  · rw [h]
    simp only [Vector3.zero, abs_zero]
    exact ⟨hmax.le, hmax.le⟩
  · rw [h, hf]
    exact (positionCascadeSaturate_force_bound _ _ f t hmax).2

/-- C10, the code at the failing input: with `max_torque = 1` and `max_force = 10` the raw
torque `5` about x is above `max_torque`, yet the tick emits `-1`, because the saturation
statement compares the torque with `max_force`. -/
theorem torque_saturation_compares_max_force :
    runningState.max_torque_ = 1 ∧ runningState.max_force_ = 10
      ∧ (positionCascadeRaw 1
          (gravityOf exampleOps exampleLink
            (autoEngage (readLink Policy.positionCascade exampleOps exampleLink 1 runningState)))
          (loadFactorOf exampleOps exampleLink
            (autoEngage (readLink Policy.positionCascade exampleOps exampleLink 1 runningState)))
          (clearWrench (autoEngage (readLink Policy.positionCascade exampleOps exampleLink 1
            runningState)))).torque.x = 5
      ∧ (Update Policy.positionCascade exampleOps exampleLink [] true 1 runningState).torque.x
          = -1 := by
  refine ⟨rfl, rfl, ?_, ?_⟩
  · norm_num [readLink, autoEngage, clearWrench,
      runningState, exampleState, exampleOps, exampleLink, exampleBank, unitPID,
      positionCascadeRaw, update, limitCommand, Vector3.zero, Pose.reset]
  · norm_num [Update, callAvailable, controlStep, readLink, autoEngage, clearWrench, gravityOf, loadFactorOf, Vector3.Dot,
      runningState, exampleState, exampleOps, exampleLink, exampleBank, unitPID,
      positionCascadeLaw, positionCascadeRaw, positionCascadeSaturate, update, limitCommand,
      Vector3.zero, Pose.reset]

end Tick

/-! ## Idle ticks and skipped ticks -/

section Idle

open GazeboSimpleController GazeboSimpleController.PIDController Examples

theorem dispatch_runtime (ops : MathOps) (st : GazeboSimpleController) (cb : Callback)
    (a : Axis) :
    runtime ((dispatch ops st cb).controllers_.get a) = runtime (st.controllers_.get a) := by
  cases cb with
  | controller m =>
    simp only [dispatch]
    rw [ControllerCallback_controllers]
    cases a <;> simp only [Controllers.get] <;> split_ifs <;> rfl
  | position m => rfl
  | velocity m => rfl
  | imu m => rfl
  | state m =>
    simp only [dispatch, StateCallback]
    split_ifs <;> rfl
  | engage => rfl
  | shutdown => rfl

theorem callAvailable_runtime (ops : MathOps) (queue : List Callback) (a : Axis) :
    ∀ st : GazeboSimpleController,
      runtime ((callAvailable ops st queue).controllers_.get a)
        = runtime (st.controllers_.get a) := by
  induction queue with
  | nil => intro st; rfl
  | cons cb rest ih =>
    intro st
    have h := ih (dispatch ops st cb)
    simp only [callAvailable, List.foldl_cons] at h ⊢
    exact h.trans (dispatch_runtime ops st cb a)

theorem Update_of_idle (policy : Policy) (ops : MathOps) (link : Link)
    (queue : List Callback) (dt : ℚ) (st : GazeboSimpleController) (hdt : dt > 0)
    (hidle : (tickInput policy ops link queue dt st).running_ = false) :
    Update policy ops link queue true dt st
      = idleReset (clearWrench (tickInput policy ops link queue dt st)) := by
  unfold Update
  simp only [hdt, and_self, if_true]
  exact controlStep_of_idle policy ops link dt _ hidle

theorem tickInput_controllers (policy : Policy) (ops : MathOps) (link : Link)
    (queue : List Callback) (dt : ℚ) (st : GazeboSimpleController) :
    (tickInput policy ops link queue dt st).controllers_
      = (callAvailable ops st queue).controllers_ := by
  unfold tickInput
  rw [(autoEngage_frame _).2.2, (readLink_frame policy ops link dt _).2.2.2.2.2]

/-- C11, as amended: in every executed tick (`dt > 0`) whose engage state is Idle after the
auto-engage check, the three position controllers position-x, position-y and position-z are
left as the pending callbacks left them, with the runtime state they had before the call, and
each of the nine controllers roll, pitch, yaw, roll-rate, pitch-rate, yaw-rate, velocity-x,
velocity-y and velocity-z is reset. -/
theorem idle_tick_frame (policy : Policy) (ops : MathOps) (link : Link)
    (queue : List Callback) (dt : ℚ) (st : GazeboSimpleController) (hdt : dt > 0)
    (hidle : (tickInput policy ops link queue dt st).running_ = false) :
    (∀ a ∈ idleKeptSet,
        (Update policy ops link queue true dt st).controllers_.get a
            = (callAvailable ops st queue).controllers_.get a
          ∧ runtime ((Update policy ops link queue true dt st).controllers_.get a)
            = runtime (st.controllers_.get a))
      ∧ ∀ a ∈ idleResetSet,
        (Update policy ops link queue true dt st).controllers_.get a
          = ((callAvailable ops st queue).controllers_.get a).reset := by
  rw [Update_of_idle policy ops link queue dt st hdt hidle]
  have hc := tickInput_controllers policy ops link queue dt st
  have hkeep : ∀ a ∈ idleKeptSet,
      (idleReset (clearWrench (tickInput policy ops link queue dt st))).controllers_.get a
        = (callAvailable ops st queue).controllers_.get a := by
    intro a ha
    rw [← hc]
    simp only [idleKeptSet, List.mem_cons, List.mem_singleton, List.not_mem_nil, or_false] at ha
    rcases ha with rfl | rfl | rfl <;> rfl
  refine ⟨fun a ha => ⟨hkeep a ha, ?_⟩, ?_⟩
  · rw [hkeep a ha]
    exact callAvailable_runtime ops queue a st
  · intro a ha
    rw [← hc]
    simp only [idleResetSet, List.mem_cons, List.mem_singleton, List.not_mem_nil, or_false] at ha
    rcases ha with rfl | rfl | rfl | rfl | rfl | rfl | rfl | rfl | rfl <;> rfl

/-- C11 as amended, witness: an idle object with `auto_engage = false`. -/
theorem idle_tick_frame_witness :
    (∀ a ∈ idleKeptSet,
        (Update Policy.positionCascade exampleOps exampleLink [] true 1
            idleUsedState).controllers_.get a
            = (callAvailable exampleOps idleUsedState []).controllers_.get a
          ∧ runtime ((Update Policy.positionCascade exampleOps exampleLink [] true 1
              idleUsedState).controllers_.get a)
            = runtime (idleUsedState.controllers_.get a))
      ∧ ∀ a ∈ idleResetSet,
        (Update Policy.positionCascade exampleOps exampleLink [] true 1
            idleUsedState).controllers_.get a
          = ((callAvailable exampleOps idleUsedState []).controllers_.get a).reset :=
  idle_tick_frame Policy.positionCascade exampleOps exampleLink [] 1 idleUsedState
    (by norm_num)
    (by simp [tickInput, callAvailable, readLink, autoEngage, idleUsedState, exampleState])

/-- C11, counterexample: an idle tick resets the velocity-z controller, whose integral goes
from 4 to 0. -/
theorem idle_tick_resets_velocity_z :
    (0 : ℚ) < 1
      ∧ (tickInput Policy.positionCascade exampleOps exampleLink [] 1 idleUsedState).running_
        = false
      ∧ (idleUsedState.controllers_.get Axis.velocity_z).i = 4
      ∧ ((Update Policy.positionCascade exampleOps exampleLink [] true 1
          idleUsedState).controllers_.get Axis.velocity_z).i = 0
      ∧ runtime ((Update Policy.positionCascade exampleOps exampleLink [] true 1
          idleUsedState).controllers_.get Axis.velocity_z)
        ≠ runtime (idleUsedState.controllers_.get Axis.velocity_z) := by
  have hidle : (tickInput Policy.positionCascade exampleOps exampleLink [] 1
      idleUsedState).running_ = false := by
    simp [tickInput, callAvailable, readLink, autoEngage, idleUsedState, exampleState]
  have hz : (Update Policy.positionCascade exampleOps exampleLink [] true 1
      idleUsedState).controllers_.get Axis.velocity_z
        = ((callAvailable exampleOps idleUsedState []).controllers_.get Axis.velocity_z).reset :=
    (idle_tick_frame Policy.positionCascade exampleOps exampleLink [] 1 idleUsedState
      (by norm_num) hidle).2 Axis.velocity_z (by simp [idleResetSet])
  refine ⟨by norm_num, hidle, rfl, ?_, ?_⟩
  · rw [hz]; rfl
  · rw [hz]
    intro h
    have hi := congrArg (fun r : ℚ × ℚ × ℚ × ℚ × ℚ × ℚ => r.2.2.2.2.1) h
    norm_num [runtime, callAvailable, idleUsedState, exampleState, Controllers.get,
      integratorExample, reset] at hi

/-- C12: when the rate decimator does not fire or reports `dt <= 0` and no callback is pending,
`Update` returns the object unchanged (stored force and torque, engage state, vehicle-state
cache and all twelve controllers), so the force and the relative torque handed to the host are
those of the previous tick; and after `Reset()` the stored force and torque are zero and the
engage state is Idle. -/
theorem no_tick (policy : Policy) (ops : MathOps) (link : Link) (fired : Bool) (dt : ℚ)
    (st : GazeboSimpleController) (h : fired = false ∨ dt ≤ 0) :
    Update policy ops link [] fired dt st = st
      ∧ appliedForce (Update policy ops link [] fired dt st) = appliedForce st
      ∧ appliedRelativeTorque link (Update policy ops link [] fired dt st)
        = appliedRelativeTorque link st
      ∧ (Reset st).force = Vector3.zero ∧ (Reset st).torque = Vector3.zero
      ∧ (Reset st).running_ = false := by
  have hu : Update policy ops link [] fired dt st = st := by
    unfold Update
    have hn : ¬ (fired = true ∧ dt > 0) := by
      rintro ⟨hf, hd⟩
      rcases h with h | h
      · rw [h] at hf; exact absurd hf (by simp)
      · exact absurd hd (not_lt.mpr h)
    simp only [callAvailable, List.foldl_nil, if_neg hn]
  rw [hu]
  exact ⟨rfl, rfl, rfl, rfl, rfl, rfl⟩

/-- C12, witness: a tick with `dt = 0` and a tick whose decimator did not fire. -/
theorem no_tick_witness :
    Update Policy.positionCascade exampleOps exampleLink [] true 0 runningState = runningState
      ∧ Update Policy.attitudeRate exampleOps exampleLink [] false 1 runningState = runningState
      ∧ (Reset runningState).force = Vector3.zero ∧ (Reset runningState).torque = Vector3.zero
      ∧ (Reset runningState).running_ = false :=
  ⟨(no_tick Policy.positionCascade exampleOps exampleLink true 0 runningState
      (Or.inr (le_refl 0))).1,
   (no_tick Policy.attitudeRate exampleOps exampleLink false 1 runningState (Or.inl rfl)).1,
   (no_tick Policy.attitudeRate exampleOps exampleLink false 1 runningState (Or.inl rfl)).2.2.2⟩

end Idle

/-! ## Measurement sources -/

section Feeds

open GazeboSimpleController GazeboSimpleController.PIDController Examples

theorem dispatch_topics (ops : MathOps) (st : GazeboSimpleController) (cb : Callback) :
    (dispatch ops st cb).imu_topic_ = st.imu_topic_
      ∧ (dispatch ops st cb).state_topic_ = st.state_topic_ := by
  cases cb <;> simp only [dispatch, ControllerCallback, PositionCallback, VelocityCallback,
    ImuCallback, StateCallback, EngageCallback, ShutdownCallback] <;> first
    | (split_ifs <;> simp)
    | simp

theorem callAvailable_topics (ops : MathOps) (queue : List Callback) :
    ∀ st : GazeboSimpleController,
      (callAvailable ops st queue).imu_topic_ = st.imu_topic_
        ∧ (callAvailable ops st queue).state_topic_ = st.state_topic_ := by
  induction queue with
  | nil => intro st; exact ⟨rfl, rfl⟩
  | cons cb rest ih =>
    intro st
    have h := ih (dispatch ops st cb)
    have h2 := dispatch_topics ops st cb
    simp only [callAvailable, List.foldl_cons] at h ⊢
    exact ⟨h.1.trans h2.1, h.2.trans h2.2⟩

theorem callAvailable_append (ops : MathOps) (st : GazeboSimpleController)
    (pre : List Callback) (cb : Callback) (post : List Callback) :
    callAvailable ops st (pre ++ cb :: post)
      = callAvailable ops (dispatch ops (callAvailable ops st pre) cb) post := by
  simp only [callAvailable, List.foldl_append, List.foldl_cons]

theorem dispatch_orientation (ops : MathOps) (st : GazeboSimpleController) (cb : Callback)
    (himu : st.imu_topic_ ≠ "") :
    (dispatch ops st cb).pose.pos = st.pose.pos
      ∧ (cb.isImu = false →
        (dispatch ops st cb).pose.rot = st.pose.rot ∧ (dispatch ops st cb).euler = st.euler
          ∧ (dispatch ops st cb).angular_velocity = st.angular_velocity) := by
  cases cb with
  | controller m => exact ⟨rfl, fun _ => ⟨rfl, rfl, rfl⟩⟩
  | position m => exact ⟨rfl, fun _ => ⟨rfl, rfl, rfl⟩⟩
  | velocity m => exact ⟨rfl, fun _ => ⟨rfl, rfl, rfl⟩⟩
  | imu m => exact ⟨rfl, fun h => absurd h (by simp [Callback.isImu])⟩
  | state m =>
    refine ⟨?_, fun _ => ⟨?_, ?_, ?_⟩⟩ <;> simp only [dispatch, StateCallback, if_neg himu]
  | engage => exact ⟨rfl, fun _ => ⟨rfl, rfl, rfl⟩⟩
  | shutdown => exact ⟨rfl, fun _ => ⟨rfl, rfl, rfl⟩⟩

theorem callAvailable_position (ops : MathOps) (queue : List Callback) :
    ∀ st : GazeboSimpleController, st.imu_topic_ ≠ "" →
      (callAvailable ops st queue).pose.pos = st.pose.pos := by
  induction queue with
  | nil => intro st _; rfl
  | cons cb rest ih =>
    intro st himu
    have h := ih (dispatch ops st cb) (by rw [(dispatch_topics ops st cb).1]; exact himu)
    simp only [callAvailable, List.foldl_cons] at h ⊢
    exact h.trans (dispatch_orientation ops st cb himu).1

theorem callAvailable_orientation (ops : MathOps) (queue : List Callback) :
    ∀ st : GazeboSimpleController, st.imu_topic_ ≠ "" → (∀ cb ∈ queue, cb.isImu = false) →
      (callAvailable ops st queue).pose.rot = st.pose.rot
        ∧ (callAvailable ops st queue).euler = st.euler
        ∧ (callAvailable ops st queue).angular_velocity = st.angular_velocity := by
  induction queue with
  | nil => intro st _ _; exact ⟨rfl, rfl, rfl⟩
  | cons cb rest ih =>
    intro st himu hq
    have h := ih (dispatch ops st cb) (by rw [(dispatch_topics ops st cb).1]; exact himu)
      (fun c hc => hq c (List.mem_cons_of_mem _ hc))
    obtain ⟨h1, h2, h3⟩ := (dispatch_orientation ops st cb himu).2 (hq cb (List.mem_cons_self _ _))
    simp only [callAvailable, List.foldl_cons] at h ⊢
    exact ⟨h.1.trans h1, h.2.1.trans h2, h.2.2.trans h3⟩

theorem dispatch_velocity (ops : MathOps) (st : GazeboSimpleController) (cb : Callback)
    (h : cb.isState = false) : (dispatch ops st cb).velocity = st.velocity := by
  cases cb with
  | state m => exact absurd h (by simp [Callback.isState])
  | controller m => rfl
  | position m => rfl
  | velocity m => rfl
  | imu m => rfl
  | engage => rfl
  | shutdown => rfl

theorem callAvailable_velocity (ops : MathOps) (queue : List Callback) :
    ∀ st : GazeboSimpleController, (∀ cb ∈ queue, cb.isState = false) →
      (callAvailable ops st queue).velocity = st.velocity := by
  induction queue with
  | nil => intro st _; rfl
  | cons cb rest ih =>
    intro st hq
    have h := ih (dispatch ops st cb) (fun c hc => hq c (List.mem_cons_of_mem _ hc))
    simp only [callAvailable, List.foldl_cons] at h ⊢
    exact h.trans (dispatch_velocity ops st cb (hq cb (List.mem_cons_self _ _)))

theorem StateCallback_velocity (ops : MathOps) (st : GazeboSimpleController) (m : Odometry) :
    (StateCallback ops st m).velocity = m.twist_linear := by
  simp only [StateCallback]

theorem readLink_of_imu (policy : Policy) (ops : MathOps) (link : Link) (dt : ℚ)
    (st : GazeboSimpleController) (himu : st.imu_topic_ ≠ "") :
    (readLink policy ops link dt st).pose = st.pose
      ∧ (readLink policy ops link dt st).euler = st.euler
      ∧ (readLink policy ops link dt st).angular_velocity = st.angular_velocity := by
  cases policy <;> simp only [readLink, if_neg himu] <;> split_ifs <;> exact ⟨rfl, rfl, rfl⟩

theorem readLink_of_state (policy : Policy) (ops : MathOps) (link : Link) (dt : ℚ)
    (st : GazeboSimpleController) (hstate : st.state_topic_ ≠ "") :
    (readLink policy ops link dt st).velocity = st.velocity
      ∧ (readLink policy ops link dt st).acceleration = st.acceleration := by
  cases policy <;> simp only [readLink] <;> split_ifs <;> exact ⟨rfl, rfl⟩

theorem autoEngage_vehicle (st : GazeboSimpleController) :
    (autoEngage st).pose = st.pose ∧ (autoEngage st).euler = st.euler
      ∧ (autoEngage st).angular_velocity = st.angular_velocity
      ∧ (autoEngage st).velocity = st.velocity := by
  unfold autoEngage
  split_ifs <;> exact ⟨rfl, rfl, rfl, rfl⟩

theorem attitudeRateLaw_vehicle (ops : MathOps) (dt gravity load_factor : ℚ)
    (st : GazeboSimpleController) :
    (attitudeRateLaw ops dt gravity load_factor st).pose = st.pose
      ∧ (attitudeRateLaw ops dt gravity load_factor st).euler = st.euler
      ∧ (attitudeRateLaw ops dt gravity load_factor st).angular_velocity = st.angular_velocity
      ∧ (attitudeRateLaw ops dt gravity load_factor st).velocity = st.velocity := by
  simp only [attitudeRateLaw, and_self]

theorem positionCascadeLaw_vehicle (dt gravity load_factor : ℚ)
    (st : GazeboSimpleController) :
    (positionCascadeLaw dt gravity load_factor st).pose = st.pose
      ∧ (positionCascadeLaw dt gravity load_factor st).euler = st.euler
      ∧ (positionCascadeLaw dt gravity load_factor st).angular_velocity = st.angular_velocity
      ∧ (positionCascadeLaw dt gravity load_factor st).velocity = st.velocity := by
  simp only [positionCascadeLaw, positionCascadeRaw, and_self]

theorem controlStep_vehicle (policy : Policy) (ops : MathOps) (link : Link) (dt : ℚ)
    (st : GazeboSimpleController) :
    (controlStep policy ops link dt st).pose = (readLink policy ops link dt st).pose
      ∧ (controlStep policy ops link dt st).euler = (readLink policy ops link dt st).euler
      ∧ (controlStep policy ops link dt st).angular_velocity
        = (readLink policy ops link dt st).angular_velocity
      ∧ (controlStep policy ops link dt st).velocity
        = (readLink policy ops link dt st).velocity := by
  obtain ⟨h1, h2, h3, h4⟩ := autoEngage_vehicle (readLink policy ops link dt st)
  rw [← h1, ← h2, ← h3, ← h4]
  cases hr : (autoEngage (readLink policy ops link dt st)).running_
  · rw [controlStep_of_idle policy ops link dt st hr]
    exact ⟨rfl, rfl, rfl, rfl⟩
  · cases policy
    · rw [controlStep_attitudeRate_of_running ops link dt st hr]
      exact attitudeRateLaw_vehicle ops dt _ _ _
    · rw [controlStep_positionCascade_of_running ops link dt st hr]
      exact positionCascadeLaw_vehicle dt _ _ _

theorem Update_executed (policy : Policy) (ops : MathOps) (link : Link)
    (queue : List Callback) (dt : ℚ) (st : GazeboSimpleController) (hdt : dt > 0) :
    Update policy ops link queue true dt st
      = controlStep policy ops link dt (callAvailable ops st queue) := by
  unfold Update
  simp only [hdt, and_self, if_true]

theorem Update_vehicle_of_imu (policy : Policy) (ops : MathOps) (link : Link)
    (queue : List Callback) (dt : ℚ) (st : GazeboSimpleController) (hdt : dt > 0)
    (himu : st.imu_topic_ ≠ "") :
    (Update policy ops link queue true dt st).pose = (callAvailable ops st queue).pose
      ∧ (Update policy ops link queue true dt st).euler = (callAvailable ops st queue).euler
      ∧ (Update policy ops link queue true dt st).angular_velocity
        = (callAvailable ops st queue).angular_velocity := by
  have hq : (callAvailable ops st queue).imu_topic_ ≠ "" := by
    rw [(callAvailable_topics ops queue st).1]; exact himu
  obtain ⟨h1, h2, h3, -⟩ := controlStep_vehicle policy ops link dt (callAvailable ops st queue)
  obtain ⟨g1, g2, g3⟩ := readLink_of_imu policy ops link dt (callAvailable ops st queue) hq
  rw [Update_executed policy ops link queue dt st hdt]
  exact ⟨h1.trans g1, h2.trans g2, h3.trans g3⟩

theorem Update_pose_of_no_imu (policy : Policy) (ops : MathOps) (link : Link)
    (queue : List Callback) (dt : ℚ) (st : GazeboSimpleController) (hdt : dt > 0)
    (himu : st.imu_topic_ = "") :
    (Update policy ops link queue true dt st).pose = link.worldPose
      ∧ (Update policy ops link queue true dt st).angular_velocity = link.worldAngularVel
      ∧ (Update policy ops link queue true dt st).euler = ops.euler link.worldPose.rot := by
  have hq : (callAvailable ops st queue).imu_topic_ = "" := by
    rw [(callAvailable_topics ops queue st).1]; exact himu
  obtain ⟨h1, h2, h3, -⟩ := controlStep_vehicle policy ops link dt (callAvailable ops st queue)
  rw [Update_executed policy ops link queue dt st hdt, h1, h2, h3]
  cases policy <;> simp only [readLink, hq, if_true] <;> split_ifs <;> exact ⟨rfl, rfl, rfl⟩

/-- C13, as amended: in an executed tick (`dt > 0`), when an IMU feed is configured the pose,
the Euler angles and the angular velocity that the tick uses are the ones the pending callbacks
left (they are not replaced by the physics query, and the position is the stored one), and the
orientation, Euler angles and angular velocity are the ones of the latest IMU message, whatever
state-feed messages arrive before or after it; when a state feed is configured the linear
velocity that the tick uses is the one of the latest state-feed message. -/
theorem feed_priority (policy : Policy) (ops : MathOps) (link : Link) (dt : ℚ)
    (st : GazeboSimpleController) (hdt : dt > 0) :
    (st.imu_topic_ ≠ "" →
      (∀ queue : List Callback,
        (Update policy ops link queue true dt st).pose = (callAvailable ops st queue).pose
          ∧ (Update policy ops link queue true dt st).euler = (callAvailable ops st queue).euler
          ∧ (Update policy ops link queue true dt st).angular_velocity
            = (callAvailable ops st queue).angular_velocity
          ∧ (Update policy ops link queue true dt st).pose.pos = st.pose.pos)
      ∧ ∀ (pre post : List Callback) (imu : Imu), (∀ cb ∈ post, cb.isImu = false) →
        (Update policy ops link (pre ++ Callback.imu imu :: post) true dt st).pose.rot
            = imu.orientation
          ∧ (Update policy ops link (pre ++ Callback.imu imu :: post) true dt st).euler
            = ops.euler imu.orientation
          ∧ (Update policy ops link (pre ++ Callback.imu imu :: post) true dt st).angular_velocity
            = ops.rotateVector imu.orientation imu.angular_velocity)
      ∧ (st.state_topic_ ≠ "" →
        ∀ (pre post : List Callback) (state : Odometry), (∀ cb ∈ post, cb.isState = false) →
          (Update policy ops link (pre ++ Callback.state state :: post) true dt st).velocity
            = state.twist_linear) := by
  have hU := fun queue => Update_executed policy ops link queue dt st hdt
  refine ⟨fun himu => ?_, fun hstate => ?_⟩
  · have hkeep := fun queue => Update_vehicle_of_imu policy ops link queue dt st hdt himu
    refine ⟨fun queue => ?_, fun pre post imu hpost => ?_⟩
    · obtain ⟨h1, h2, h3⟩ := hkeep queue
      refine ⟨h1, h2, h3, ?_⟩
      rw [h1]
      exact callAvailable_position ops queue st himu
    · obtain ⟨h1, h2, h3⟩ := hkeep (pre ++ Callback.imu imu :: post)
      rw [h1, h2, h3, callAvailable_append]
      have hpre : (dispatch ops (callAvailable ops st pre) (Callback.imu imu)).imu_topic_ ≠ "" := by
        rw [(dispatch_topics ops _ _).1, (callAvailable_topics ops pre st).1]; exact himu
      obtain ⟨k1, k2, k3⟩ := callAvailable_orientation ops post _ hpre hpost
      rw [k1, k2, k3]
      exact ⟨rfl, rfl, rfl⟩
  · intro pre post state hpost
    have hq : (callAvailable ops st (pre ++ Callback.state state :: post)).state_topic_ ≠ "" := by
      rw [(callAvailable_topics ops _ st).2]; exact hstate
    rw [hU, (controlStep_vehicle policy ops link dt _).2.2.2,
      (readLink_of_state policy ops link dt _ hq).1, callAvailable_append,
      callAvailable_velocity ops post _ hpost]
    exact StateCallback_velocity ops _ state


/-- C13 as amended, witness: both feeds configured, an IMU message followed by a state-feed
message. -/
theorem feed_priority_witness :
    feedState.imu_topic_ ≠ "" ∧ feedState.state_topic_ ≠ ""
      ∧ (Update Policy.positionCascade exampleOps exampleLink
          [Callback.imu imuMsg, Callback.state stateMsg] true 1 feedState).pose.rot
        = imuMsg.orientation
      ∧ (Update Policy.positionCascade exampleOps exampleLink
          [Callback.imu imuMsg, Callback.state stateMsg] true 1 feedState).angular_velocity
        = exampleOps.rotateVector imuMsg.orientation imuMsg.angular_velocity
      ∧ (Update Policy.positionCascade exampleOps exampleLink
          [Callback.imu imuMsg, Callback.state stateMsg] true 1 feedState).velocity
        = stateMsg.twist_linear :=
  have h := feed_priority Policy.positionCascade exampleOps exampleLink 1 feedState (by norm_num)
  have h1 := (h.1 (by decide)).2 [] [Callback.state stateMsg] imuMsg
    (by simp [Callback.isImu])
  have h2 := h.2 (by decide) [Callback.imu imuMsg] [] stateMsg (by simp)
  ⟨by decide, by decide, h1.1, h1.2.2, h2⟩

/-- C13, counterexample: with a state feed and an IMU feed configured, the position, the
orientation and the angular velocity of the latest state-feed message are not the ones the tick
uses. -/
theorem state_feed_pose_not_used :
    feedState.state_topic_ ≠ "" ∧ (0 : ℚ) < 1
      ∧ (Update Policy.positionCascade exampleOps exampleLink [Callback.state stateMsg] true 1
          feedState).pose.pos ≠ stateMsg.position
      ∧ (Update Policy.positionCascade exampleOps exampleLink [Callback.state stateMsg] true 1
          feedState).pose.rot ≠ stateMsg.orientation
      ∧ (Update Policy.positionCascade exampleOps exampleLink [Callback.state stateMsg] true 1
          feedState).angular_velocity ≠ stateMsg.twist_angular := by
  obtain ⟨h1, -, h3⟩ := Update_vehicle_of_imu Policy.positionCascade exampleOps exampleLink
    [Callback.state stateMsg] 1 feedState (by norm_num) (by decide)
  have hne : ¬ ("imu" : String) = "" := by decide
  rw [h1, h3]
  refine ⟨by decide, by norm_num, ?_, ?_, ?_⟩ <;>
    norm_num [callAvailable, dispatch, StateCallback, feedState, exampleState, stateMsg,
      Pose.reset, Vector3.zero, hne]

end Feeds

/-! ## Vertical force -/

section Vertical

open GazeboSimpleController GazeboSimpleController.PIDController Examples

theorem attitudeRateLaw_force_z (ops : MathOps) (link : Link) (dt : ℚ)
    (st : GazeboSimpleController) :
    (attitudeRateLaw ops dt (gravityOf ops link st) (loadFactorOf ops link st)
        (clearWrench st)).force.z
      = if (if st.max_force_ > 0 ∧ attitudeRateRawForceZ ops link dt st > st.max_force_
            then st.max_force_ else attitudeRateRawForceZ ops link dt st) < 0 then 0
        else (if st.max_force_ > 0 ∧ attitudeRateRawForceZ ops link dt st > st.max_force_
            then st.max_force_ else attitudeRateRawForceZ ops link dt st) := by
  simp only [attitudeRateLaw, clearWrench, attitudeRateRawForceZ]

theorem cap_then_floor (mf raw : ℚ) :
    0 ≤ (if (if mf > 0 ∧ raw > mf then mf else raw) < 0 then 0
        else (if mf > 0 ∧ raw > mf then mf else raw))
      ∧ (mf > 0 → (if (if mf > 0 ∧ raw > mf then mf else raw) < 0 then 0
        else (if mf > 0 ∧ raw > mf then mf else raw)) ≤ mf)
      ∧ (0 ≤ raw → (mf > 0 → raw ≤ mf) →
        (if (if mf > 0 ∧ raw > mf then mf else raw) < 0 then 0
          else (if mf > 0 ∧ raw > mf then mf else raw)) = raw) := by
  by_cases hc : mf > 0 ∧ raw > mf
  · have hn : ¬ mf < 0 := not_lt.mpr hc.1.le
    simp only [if_pos hc, if_neg hn]
    exact ⟨hc.1.le, fun _ => le_refl _, fun _ h => absurd (h hc.1) (not_le.mpr hc.2)⟩
  · simp only [if_neg hc]
    by_cases hn : raw < 0
    · simp only [if_pos hn]
      exact ⟨le_refl _, fun h => h.le, fun h _ => absurd hn (not_lt.mpr h)⟩
    · simp only [if_neg hn]
      refine ⟨not_lt.mp hn, fun h => ?_, fun _ _ => trivial⟩
      exact not_lt.mp (fun h2 => hc ⟨h, h2⟩)

theorem tickInput_max_force (policy : Policy) (ops : MathOps) (link : Link)
    (queue : List Callback) (dt : ℚ) (st : GazeboSimpleController) :
    (tickInput policy ops link queue dt st).max_force_ = st.max_force_ := by
  unfold tickInput
  rw [(autoEngage_frame _).1, (readLink_frame policy ops link dt _).2.2.2.1,
    (callAvailable_config ops queue st).2.1]

/-- C15, the code at the failing input: a hovering body whose raw vertical force is `1`, inside
the band of `max_force = 10`, leaves the tick with `force.z = -20`. -/
theorem vertical_clamp_flips_sign :
    hoverState.max_force_ = 10
      ∧ positionCascadeRawForceZ exampleOps exampleLink 1
          (tickInput Policy.positionCascade exampleOps exampleLink [] 1 hoverState) = 1
      ∧ (Update Policy.positionCascade exampleOps exampleLink [] true 1 hoverState).force.z
          = -20 := by
  have habs : |(49 / 5 : ℚ)| = 49 / 5 := abs_of_pos (by norm_num)
  refine ⟨rfl, ?_, ?_⟩
  · norm_num [habs, positionCascadeRawForceZ, tickInput, callAvailable, readLink, autoEngage,
      gravityOf, loadFactorOf, Vector3.Dot, hoverState, runningState, exampleState, exampleOps,
      exampleLink, exampleBank, unitPID, update, limitCommand, Vector3.zero, Pose.reset]
  · norm_num [habs, Update, callAvailable, controlStep, readLink, autoEngage, clearWrench,
      gravityOf, loadFactorOf, Vector3.Dot, hoverState, runningState, exampleState, exampleOps, exampleLink,
      exampleBank, unitPID, positionCascadeLaw, positionCascadeRaw, positionCascadeSaturate,
      update, limitCommand, Vector3.zero, Pose.reset]

end Vertical

/-! ## The input filter -/

section Filter

open GazeboSimpleController GazeboSimpleController.PIDController Examples

theorem limitCommand_abs_le (limit s : ℚ) (h : limit > 0) : |limitCommand limit s| ≤ limit := by
  unfold limitCommand
  split_ifs with h1 h2
  · rw [neg_one_mul, abs_neg, abs_of_pos h]
  · rw [one_mul, abs_of_pos h]
  · have h3 : ¬ |s| > limit := fun h4 => h1 ⟨h, h4⟩
    exact not_lt.mp h3

theorem update_input_eq (c : PIDController) (s x dx dt : ℚ) (h : dt + c.time_constant > 0) :
    (c.update s x dx dt).1.input
        = (dt * limitCommand c.limit s + c.time_constant * c.input) / (dt + c.time_constant)
      ∧ (c.update s x dx dt).1.dinput
        = (limitCommand c.limit s - c.input) / (dt + c.time_constant) := by
  unfold update
  simp only [h, if_true, and_self]

theorem update_filter_step (c : PIDController) (s x dx dt : ℚ) (hdt : dt > 0)
    (htc : c.time_constant ≥ 0) :
    min c.input (limitCommand c.limit s) ≤ (c.update s x dx dt).1.input
      ∧ (c.update s x dx dt).1.input ≤ max c.input (limitCommand c.limit s)
      ∧ (c.update s x dx dt).1.input = c.input + dt * (c.update s x dx dt).1.dinput := by
  have hpos : dt + c.time_constant > 0 := by linarith
  obtain ⟨h1, h2⟩ := update_input_eq c s x dx dt hpos
  rw [h1, h2]
  refine ⟨?_, ?_, ?_⟩
  · rw [le_div_iff₀ hpos]
    rcases le_total c.input (limitCommand c.limit s) with h | h
    · rw [min_eq_left h]
      nlinarith
    · rw [min_eq_right h]
      nlinarith
  · rw [div_le_iff₀ hpos]
    rcases le_total c.input (limitCommand c.limit s) with h | h
    · rw [max_eq_right h]
      nlinarith
    · rw [max_eq_left h]
      nlinarith
  · field_simp
    ring

theorem call_apply_invariant (c : PIDController) (k : Call) (hk : k.admissible)
    (hlimit : c.limit > 0) (htc : c.time_constant ≥ 0) (hin : |c.input| ≤ c.limit) :
    (k.apply c).limit = c.limit ∧ (k.apply c).time_constant ≥ 0
      ∧ |(k.apply c).input| ≤ c.limit := by
  cases k with
  | update s x dx dt =>
    have hdt : dt > 0 := hk
    obtain ⟨h1, h2, -⟩ := update_filter_step c s x dx dt hdt htc
    have hs := limitCommand_abs_le c.limit s hlimit
    refine ⟨rfl, htc, ?_⟩
    simp only [Call.apply]
    rw [abs_le] at hin hs ⊢
    constructor
    · exact le_trans (le_min hin.1 hs.1) h1
    · exact le_trans h2 (max_le hin.2 hs.2)
  | updateGains p d i t =>
    exact ⟨rfl, hk, hin⟩

theorem calls_invariant (cs : List Call) :
    ∀ c : PIDController, (∀ k ∈ cs, k.admissible) → c.limit > 0 → c.time_constant ≥ 0 →
      |c.input| ≤ c.limit →
      (calls c cs).limit = c.limit ∧ (calls c cs).time_constant ≥ 0
        ∧ |(calls c cs).input| ≤ c.limit := by
  induction cs with
  | nil => intro c _ _ htc hin; exact ⟨rfl, htc, hin⟩
  | cons k rest ih =>
    intro c hcs hlimit htc hin
    obtain ⟨h1, h2, h3⟩ :=
      call_apply_invariant c k (hcs k (List.mem_cons_self _ _)) hlimit htc hin
    have := ih (k.apply c) (fun j hj => hcs j (List.mem_cons_of_mem _ hj))
      (by rw [h1]; exact hlimit) h2 (by rw [h1]; exact h3)
    rw [h1] at this
    simpa only [calls, List.foldl_cons] using this

/-- C16, as amended: in exact arithmetic, for a controller with `limit > 0` and a time constant
that is not negative, after any finite sequence of `update` calls with `dt > 0` and
`updateGains` calls with a new time constant that is not negative, starting from the reset
state, `|input| <= limit`; and every further `update` with `dt > 0` leaves the new filtered
input between the old one and the clamped setpoint, equal to `input + dt * dinput'`, and again
within the limit. -/
theorem filter_bounded (c0 : PIDController) (cs : List Call) (hlimit : c0.limit > 0)
    (htc : c0.time_constant ≥ 0) (hcs : ∀ k ∈ cs, k.admissible) :
    |(calls c0.reset cs).input| ≤ c0.limit
      ∧ ∀ s x dx dt : ℚ, dt > 0 →
        min (calls c0.reset cs).input (limitCommand c0.limit s)
            ≤ ((calls c0.reset cs).update s x dx dt).1.input
          ∧ ((calls c0.reset cs).update s x dx dt).1.input
            ≤ max (calls c0.reset cs).input (limitCommand c0.limit s)
          ∧ ((calls c0.reset cs).update s x dx dt).1.input
            = (calls c0.reset cs).input + dt * ((calls c0.reset cs).update s x dx dt).1.dinput
          ∧ |((calls c0.reset cs).update s x dx dt).1.input| ≤ c0.limit := by
  have h0 : |c0.reset.input| ≤ c0.reset.limit := by
    show |(0 : ℚ)| ≤ c0.limit
    rw [abs_zero]
    exact hlimit.le
  obtain ⟨h1, h2, h3⟩ := calls_invariant cs c0.reset hcs hlimit htc h0
  have h1' : (calls c0.reset cs).limit = c0.limit := h1
  refine ⟨h3, ?_⟩
  intro s x dx dt hdt
  have hstep := update_filter_step (calls c0.reset cs) s x dx dt hdt h2
  rw [h1'] at hstep
  refine ⟨hstep.1, hstep.2.1, hstep.2.2, ?_⟩
  have := call_apply_invariant (calls c0.reset cs) (Call.update s x dx dt) hdt
    (by rw [h1']; exact hlimit) h2 (by rw [h1']; exact h3)
  rw [h1'] at this
  exact this.2.2

/-- C16 as amended, witness: `limit = 2`, three calls, then an `update` with setpoint 5. -/
theorem filter_bounded_witness :
    |(calls saturationExample.reset filterCalls).input| ≤ 2
      ∧ min (calls saturationExample.reset filterCalls).input (limitCommand 2 5)
          ≤ ((calls saturationExample.reset filterCalls).update 5 0 0 (1 / 50)).1.input
      ∧ ((calls saturationExample.reset filterCalls).update 5 0 0 (1 / 50)).1.input
          ≤ max (calls saturationExample.reset filterCalls).input (limitCommand 2 5)
      ∧ ((calls saturationExample.reset filterCalls).update 5 0 0 (1 / 50)).1.input
          = (calls saturationExample.reset filterCalls).input
            + 1 / 50 * ((calls saturationExample.reset filterCalls).update 5 0 0 (1 / 50)).1.dinput :=
  have h := filter_bounded saturationExample filterCalls (by norm_num [saturationExample])
    (by norm_num [saturationExample])
    (by
      intro k hk
      simp only [filterCalls, List.mem_cons, List.mem_singleton, List.not_mem_nil, or_false] at hk
      rcases hk with rfl | rfl | rfl <;> norm_num [Call.admissible])
  have h2 := h.2 5 0 0 (1 / 50) (by norm_num)
  ⟨h.1, h2.1, h2.2.1, h2.2.2.1⟩

theorem roundDouble_values :
    roundDouble 7 = 7 ∧ roundDouble (1 / 10) = 3602879701896397 / 2 ^ 55
      ∧ roundDouble (1 / 100) = 5764607523034235 / 2 ^ 59
      ∧ roundDouble (-(1 / 100)) = -(5764607523034235 / 2 ^ 59)
      ∧ roundDouble (roundDouble (1 / 100)) = roundDouble (1 / 100) := by
  decide!

/-- C16, counterexample: with the rounding of the double operations, a reset controller with
`limit = 7` and no filter that is updated with setpoint 10 (clamped to 7) and `dt = 0.01` has
the filtered input `7 + 2 ^ (-50)`, one unit in the last place above the limit and above the
clamped setpoint. -/
theorem filter_overshoots_by_rounding :
    sevenLimitExample.limit > 0 ∧ sevenLimitExample.time_constant ≥ 0
      ∧ roundDouble (1 / 100) > 0
      ∧ limitCommand sevenLimitExample.limit 10 = 7
      ∧ (sevenLimitExample.reset.updateRounded 10 0 0 (roundDouble (1 / 100))).1.input
        = 7 + 1 / 2 ^ 50
      ∧ ¬ |(sevenLimitExample.reset.updateRounded 10 0 0 (roundDouble (1 / 100))).1.input|
          ≤ sevenLimitExample.limit
      ∧ ¬ (sevenLimitExample.reset.updateRounded 10 0 0 (roundDouble (1 / 100))).1.input
          ≤ max sevenLimitExample.reset.input (limitCommand sevenLimitExample.limit 10) := by
  decide!

end Filter

/-! ## Special values of the vertical force -/

section Special

open GazeboSimpleController GazeboSimpleController.PIDController Examples

theorem saturateVerticalDouble_bound (mf : ℚ) (hmf : mf > 0) (f : Double)
    (hf : f ≠ Double.nan) :
    Double.le (Double.fabs (saturateVerticalDouble (Double.finite mf) f))
      (Double.finite (mf + 10)) := by
  have h10 : |mf + 10| ≤ mf + 10 := by rw [abs_of_pos (by linarith)]
  have h10n : |-mf + -10| ≤ mf + 10 := by
    rw [show -mf + -10 = -(mf + 10) by ring, abs_neg, abs_of_pos (by linarith)]
  cases f with
  | finite q =>
    simp only [saturateVerticalDouble, Double.gt, Double.fabs, Double.add, Double.sub,
      Double.neg, Bool.and_eq_true, decide_eq_true_eq]
    split_ifs with h1 h2
    · exact h10
    · exact h10n
    · simp only [Double.fabs, Double.le]
      have h3 : ¬ |q| + 10 > mf := fun h => h1 ⟨hmf, h⟩
      linarith [not_lt.mp h3]
  | posInf =>
    simp [saturateVerticalDouble, Double.gt, Double.fabs, Double.add, Double.le, hmf, h10]
  | negInf =>
    simp [saturateVerticalDouble, Double.gt, Double.fabs, Double.add, Double.sub, Double.neg,
      Double.le, hmf, h10n]
  | nan => exact absurd rfl hf

theorem saturateVerticalDouble_nan (m : Double) :
    saturateVerticalDouble m Double.nan = Double.nan := by
  cases m <;> simp [saturateVerticalDouble, Double.gt, Double.fabs, Double.add]

theorem saturateHorizontalDouble_bound (mf : ℚ) (hmf : mf > 0) (f : Double)
    (hf : f ≠ Double.nan) :
    Double.le (Double.fabs (saturateHorizontalDouble (Double.finite mf) f))
      (Double.finite mf) := by
  have h1 : |mf| ≤ mf := by rw [abs_of_pos hmf]
  have h2 : |-mf| ≤ mf := by rw [abs_neg, abs_of_pos hmf]
  cases f with
  | finite q =>
    simp only [saturateHorizontalDouble, Double.gt, Double.fabs, Double.neg,
      Bool.and_eq_true, decide_eq_true_eq]
    split_ifs with h3 h4
    · exact h1
    · exact h2
    · simp only [Double.fabs, Double.le]
      have h5 : ¬ |q| > mf := fun h => h3 ⟨hmf, h⟩
      exact not_lt.mp h5
  | posInf => simp [saturateHorizontalDouble, Double.gt, Double.fabs, Double.le, hmf, h1]
  | negInf =>
    simp [saturateHorizontalDouble, Double.gt, Double.fabs, Double.neg, Double.le, hmf, h1]
  | nan => exact absurd rfl hf

theorem saturateVerticalDouble_finite (mf f : ℚ) :
    saturateVerticalDouble (Double.finite mf) (Double.finite f)
      = Double.finite (if mf > 0 ∧ |f| + 10 > mf then (if f > mf then mf + 10 else -mf - 10)
          else f) := by
  simp only [saturateVerticalDouble, Double.gt, Double.fabs, Double.add, Double.sub,
    Double.neg, Bool.and_eq_true, decide_eq_true_eq]
  split_ifs <;> first | rfl | (congr 1; ring)

theorem rawForceZDouble_finite (negZero : Bool) (mass vz gravity dot : ℚ) (hdot : dot ≠ 0) :
    rawForceZDouble negZero (Double.finite mass) (Double.finite vz) (Double.finite gravity)
        (Double.finite dot)
      = Double.finite (mass * (vz + gravity * gravity / dot * gravity)) := by
  simp only [rawForceZDouble, loadFactorDouble, Double.mul, Double.div, Double.add, if_neg hdot]

theorem rawForceZDouble_zero_gravity (negZero : Bool) (mass vz : ℚ) :
    rawForceZDouble negZero (Double.finite mass) (Double.finite vz) (Double.finite 0)
        (Double.finite 0) = Double.nan := by
  simp [rawForceZDouble, loadFactorDouble, Double.mul, Double.div, Double.add]


theorem attitudeRateLimitDouble_spec (mf : ℚ) (f : Double) (hf : f ≠ Double.nan) :
    Double.le (Double.finite 0) (attitudeRateLimitDouble (Double.finite mf) f)
      ∧ (mf > 0 → Double.le (attitudeRateLimitDouble (Double.finite mf) f) (Double.finite mf))
      ∧ ∀ r : ℚ, f = Double.finite r → 0 ≤ r → (mf > 0 → r ≤ mf) →
        attitudeRateLimitDouble (Double.finite mf) f = Double.finite r := by
  cases f with
  | finite q =>
    have h := cap_then_floor mf q
    have e : attitudeRateLimitDouble (Double.finite mf) (Double.finite q)
        = Double.finite (if (if mf > 0 ∧ q > mf then mf else q) < 0 then 0
            else (if mf > 0 ∧ q > mf then mf else q)) := by
      simp only [attitudeRateLimitDouble, Double.gt, Double.lt, Bool.and_eq_true,
        decide_eq_true_eq]
      by_cases hc : mf > 0 ∧ q > mf
      · simp only [if_pos hc, Double.gt, decide_eq_true_eq]
        split_ifs <;> rfl
      · simp only [if_neg hc, Double.gt, decide_eq_true_eq]
        split_ifs <;> rfl
    rw [e]
    refine ⟨h.1, h.2.1, ?_⟩
    intro r hr h0 hle
    have hq : q = r := by injection hr
    subst hq
    rw [h.2.2 h0 hle]
  | posInf =>
    refine ⟨?_, ?_, ?_⟩
    · by_cases hm : mf > 0
      · have hn : ¬ mf < 0 := not_lt.mpr hm.le
        simp [attitudeRateLimitDouble, Double.gt, Double.lt, Double.le, hm, hm.le, hn]
      · simp [attitudeRateLimitDouble, Double.gt, Double.lt, Double.le, hm]
    · intro hm
      have hn : ¬ mf < 0 := not_lt.mpr hm.le
      simp [attitudeRateLimitDouble, Double.gt, Double.lt, Double.le, hm, hn]
    · intro r hr
      exact absurd hr (by simp)
  | negInf =>
    refine ⟨?_, ?_, ?_⟩
    · simp [attitudeRateLimitDouble, Double.gt, Double.lt, Double.le]
    · intro hm
      simp [attitudeRateLimitDouble, Double.gt, Double.lt, Double.le, hm.le]
    · intro r hr
      exact absurd hr (by simp)
  | nan => exact absurd rfl hf

theorem attitudeRateLimitDouble_nan (m : Double) :
    attitudeRateLimitDouble m Double.nan = Double.nan := by
  cases m <;> simp [attitudeRateLimitDouble, Double.gt, Double.lt]

theorem attitudeRateLimitDouble_finite (mf f : ℚ) :
    attitudeRateLimitDouble (Double.finite mf) (Double.finite f)
      = Double.finite (if (if mf > 0 ∧ f > mf then mf else f) < 0 then 0
          else (if mf > 0 ∧ f > mf then mf else f)) := by
  simp only [attitudeRateLimitDouble, Double.gt, Double.lt, Bool.and_eq_true,
    decide_eq_true_eq]
  by_cases hc : mf > 0 ∧ f > mf
  · simp only [if_pos hc, Double.gt, decide_eq_true_eq]
    split_ifs <;> rfl
  · simp only [if_neg hc, Double.gt, decide_eq_true_eq]
    split_ifs <;> rfl

theorem tickInput_running (policy : Policy) (ops : MathOps) (link : Link)
    (queue : List Callback) (dt : ℚ) (st : GazeboSimpleController) (hdt : dt > 0) :
    (Update policy ops link queue true dt st).running_
      = (tickInput policy ops link queue dt st).running_ := by
  rw [Update_executed policy ops link queue dt st hdt, controlStep_running]
  rfl

theorem Update_positionCascade_of_running (ops : MathOps) (link : Link)
    (queue : List Callback) (dt : ℚ) (st : GazeboSimpleController) (hdt : dt > 0)
    (hrun : (tickInput Policy.positionCascade ops link queue dt st).running_ = true) :
    Update Policy.positionCascade ops link queue true dt st
      = positionCascadeLaw dt
          (gravityOf ops link (tickInput Policy.positionCascade ops link queue dt st))
          (loadFactorOf ops link (tickInput Policy.positionCascade ops link queue dt st))
          (clearWrench (tickInput Policy.positionCascade ops link queue dt st)) := by
  rw [Update_executed _ _ _ _ _ _ hdt]
  exact controlStep_positionCascade_of_running ops link dt _ hrun

theorem positionCascadeLaw_force_z (ops : MathOps) (link : Link) (dt : ℚ)
    (st : GazeboSimpleController) :
    (positionCascadeLaw dt (gravityOf ops link st) (loadFactorOf ops link st)
        (clearWrench st)).force.z
      = if st.max_force_ > 0 ∧ |positionCascadeRawForceZ ops link dt st| + 10 > st.max_force_
          then (if positionCascadeRawForceZ ops link dt st > st.max_force_
            then st.max_force_ + 10 else -st.max_force_ - 10)
          else positionCascadeRawForceZ ops link dt st := by
  simp only [positionCascadeLaw, positionCascadeSaturate, positionCascadeRaw, clearWrench,
    positionCascadeRawForceZ]

theorem tickRawForceZDouble_positionCascade (negZero : Bool) (ops : MathOps) (link : Link)
    (queue : List Callback) (dt : ℚ) (st : GazeboSimpleController)
    (hdot : gravityDot ops link (tickInput Policy.positionCascade ops link queue dt st) ≠ 0) :
    tickRawForceZDouble negZero Policy.positionCascade ops link queue dt st
      = Double.finite (positionCascadeRawForceZ ops link dt
          (tickInput Policy.positionCascade ops link queue dt st)) := by
  unfold tickRawForceZDouble
  rw [rawForceZDouble_finite negZero _ _ _ _ hdot]
  rfl

theorem tickForceZDouble_positionCascade (negZero : Bool) (ops : MathOps) (link : Link)
    (queue : List Callback) (dt : ℚ) (st : GazeboSimpleController) (hdt : dt > 0)
    (hdot : gravityDot ops link (tickInput Policy.positionCascade ops link queue dt st) ≠ 0) :
    tickForceZDouble negZero Policy.positionCascade ops link queue dt st
      = Double.finite (Update Policy.positionCascade ops link queue true dt st).force.z := by
  unfold tickForceZDouble
  cases hr : (tickInput Policy.positionCascade ops link queue dt st).running_
  · have hidle : (autoEngage (readLink Policy.positionCascade ops link dt
        (callAvailable ops st queue))).running_ = false := hr
    rw [Update_executed _ _ _ _ _ _ hdt, controlStep_of_idle _ _ _ _ _ hidle]
    rfl
  · rw [Update_positionCascade_of_running ops link queue dt st hdt hr,
      positionCascadeLaw_force_z, tickRawForceZDouble_positionCascade negZero ops link queue dt st
        hdot, if_pos rfl]
    simp only [saturateVerticalDouble_finite]

/-- C9, as amended: under the position-cascade policy, for every `max_force > 0` and every
executed tick whose raw vertical force `mass * (velocity-z output + load_factor * gravity)` is
not NaN, the emitted force satisfies `|force.z| <= max_force + 10`, `|force.x| <= max_force`
and `|force.y| <= max_force`; whenever the divisor of `load_factor` is not zero the emitted
vertical force is the one of the exact model; and the two saturation statements bound every
raw force that is not NaN, the infinities included. -/
theorem force_saturation (negZero : Bool) (ops : MathOps) (link : Link)
    (queue : List Callback) (dt : ℚ) (st : GazeboSimpleController)
    (hmax : st.max_force_ > 0) (hdt : dt > 0)
    (hnum : tickRawForceZDouble negZero Policy.positionCascade ops link queue dt st
      ≠ Double.nan) :
    Double.le
        (Double.fabs (tickForceZDouble negZero Policy.positionCascade ops link queue dt st))
        (Double.finite (st.max_force_ + 10))
      ∧ |(Update Policy.positionCascade ops link queue true dt st).force.x| ≤ st.max_force_
      ∧ |(Update Policy.positionCascade ops link queue true dt st).force.y| ≤ st.max_force_
      ∧ (gravityDot ops link (tickInput Policy.positionCascade ops link queue dt st) ≠ 0 →
        tickForceZDouble negZero Policy.positionCascade ops link queue dt st
          = Double.finite (Update Policy.positionCascade ops link queue true dt st).force.z)
      ∧ ∀ raw : Double, raw ≠ Double.nan →
        Double.le (Double.fabs (saturateVerticalDouble (Double.finite st.max_force_) raw))
            (Double.finite (st.max_force_ + 10))
          ∧ Double.le (Double.fabs (saturateHorizontalDouble (Double.finite st.max_force_) raw))
            (Double.finite st.max_force_) := by
  have hmf := tickInput_max_force Policy.positionCascade ops link queue dt st
  obtain ⟨hx, hy⟩ := Update_horizontal_force_bound ops link queue dt st hmax hdt
  refine ⟨?_, hx, hy,
    tickForceZDouble_positionCascade negZero ops link queue dt st hdt, ?_⟩
  · unfold tickForceZDouble
    cases hr : (tickInput Policy.positionCascade ops link queue dt st).running_
    · simp only [Bool.false_eq_true, if_false, Double.fabs, Double.le, abs_zero]
      linarith
    · simp only [if_true, hmf]
      exact saturateVerticalDouble_bound st.max_force_ hmax _ hnum
  · intro raw hraw
    exact ⟨saturateVerticalDouble_bound st.max_force_ hmax raw hraw,
      saturateHorizontalDouble_bound st.max_force_ hmax raw hraw⟩

/-- C9 as amended, witness: `max_force = 10` under a gravity of `9.8`: `|force.z| <= 20` and
horizontal components at most 10. -/
theorem force_saturation_witness :
    runningState.max_force_ = 10
      ∧ Double.le
        (Double.fabs (tickForceZDouble false Policy.positionCascade exampleOps exampleLink [] 1
          runningState))
        (Double.finite (runningState.max_force_ + 10))
      ∧ |(Update Policy.positionCascade exampleOps exampleLink [] true 1 runningState).force.x|
          ≤ runningState.max_force_
      ∧ |(Update Policy.positionCascade exampleOps exampleLink [] true 1 runningState).force.y|
          ≤ runningState.max_force_ :=
  have h := force_saturation false exampleOps exampleLink [] 1 runningState
    (by norm_num [runningState, exampleState]) (by norm_num) (by decide!)
  ⟨rfl, h.1, h.2.1, h.2.2.1⟩

/-- C9, counterexample: in a world without gravity `load_factor` is `0 * 0 / 0`, the raw
vertical force is NaN, no saturation statement fires, and the emitted `force.z` is NaN, which
is not within `max_force + 10`. -/
theorem zero_gravity_force_is_nan :
    runningState.max_force_ > 0 ∧ (1 : ℚ) > 0
      ∧ tickForceZDouble false Policy.positionCascade exampleOps zeroGravityLink [] 1 runningState
        = Double.nan
      ∧ tickForceZDouble true Policy.positionCascade exampleOps zeroGravityLink [] 1 runningState
        = Double.nan
      ∧ ¬ Double.le
          (Double.fabs (tickForceZDouble false Policy.positionCascade exampleOps zeroGravityLink
            [] 1 runningState))
          (Double.finite (runningState.max_force_ + 10)) := by
  have h1 : tickForceZDouble false Policy.positionCascade exampleOps zeroGravityLink [] 1
      runningState = Double.nan := by decide!
  have h2 : tickForceZDouble true Policy.positionCascade exampleOps zeroGravityLink [] 1
      runningState = Double.nan := by decide!
  refine ⟨by norm_num [runningState, exampleState], by norm_num, h1, h2, ?_⟩
  rw [h1]
  simp [Double.fabs, Double.le]

theorem Update_attitudeRate_of_running (ops : MathOps) (link : Link)
    (queue : List Callback) (dt : ℚ) (st : GazeboSimpleController) (hdt : dt > 0)
    (hrun : (tickInput Policy.attitudeRate ops link queue dt st).running_ = true) :
    Update Policy.attitudeRate ops link queue true dt st
      = attitudeRateLaw ops dt
          (gravityOf ops link (tickInput Policy.attitudeRate ops link queue dt st))
          (loadFactorOf ops link (tickInput Policy.attitudeRate ops link queue dt st))
          (clearWrench (tickInput Policy.attitudeRate ops link queue dt st)) := by
  rw [Update_executed _ _ _ _ _ _ hdt]
  exact controlStep_attitudeRate_of_running ops link dt _ hrun

theorem tickRawForceZDouble_attitudeRate (negZero : Bool) (ops : MathOps) (link : Link)
    (queue : List Callback) (dt : ℚ) (st : GazeboSimpleController)
    (hdot : gravityDot ops link (tickInput Policy.attitudeRate ops link queue dt st) ≠ 0) :
    tickRawForceZDouble negZero Policy.attitudeRate ops link queue dt st
      = Double.finite (attitudeRateRawForceZ ops link dt
          (tickInput Policy.attitudeRate ops link queue dt st)) := by
  unfold tickRawForceZDouble
  rw [rawForceZDouble_finite negZero _ _ _ _ hdot]
  rfl

/-- C14, as amended: under the attitude-rate policy, in an executed Running tick whose raw
vertical force `mass * (velocity-z output + load_factor * gravity)` is not NaN, the emitted
vertical force is never negative, is at most `max_force` when `max_force > 0`, and equals the
raw force whenever that is a finite value that is not negative and, when `max_force > 0`, at
most `max_force`; whenever the divisor of `load_factor` is not zero the raw and the emitted
force are the ones of the exact model; and the two limits do the same on every raw force that
is not NaN, the infinities included. -/
theorem vertical_force_attitudeRate (negZero : Bool) (ops : MathOps) (link : Link)
    (queue : List Callback) (dt : ℚ) (st : GazeboSimpleController) (hdt : dt > 0)
    (hrun : (Update Policy.attitudeRate ops link queue true dt st).running_ = true)
    (hnum : tickRawForceZDouble negZero Policy.attitudeRate ops link queue dt st
      ≠ Double.nan) :
    Double.le (Double.finite 0)
        (tickForceZDouble negZero Policy.attitudeRate ops link queue dt st)
      ∧ (st.max_force_ > 0 →
        Double.le (tickForceZDouble negZero Policy.attitudeRate ops link queue dt st)
          (Double.finite st.max_force_))
      ∧ (∀ r : ℚ,
        tickRawForceZDouble negZero Policy.attitudeRate ops link queue dt st = Double.finite r →
        0 ≤ r → (st.max_force_ > 0 → r ≤ st.max_force_) →
        tickForceZDouble negZero Policy.attitudeRate ops link queue dt st = Double.finite r)
      ∧ (gravityDot ops link (tickInput Policy.attitudeRate ops link queue dt st) ≠ 0 →
        tickRawForceZDouble negZero Policy.attitudeRate ops link queue dt st
            = Double.finite (attitudeRateRawForceZ ops link dt
                (tickInput Policy.attitudeRate ops link queue dt st))
          ∧ tickForceZDouble negZero Policy.attitudeRate ops link queue dt st
            = Double.finite (Update Policy.attitudeRate ops link queue true dt st).force.z)
      ∧ ∀ raw : Double, raw ≠ Double.nan →
        Double.le (Double.finite 0) (attitudeRateLimitDouble (Double.finite st.max_force_) raw)
          ∧ (st.max_force_ > 0 →
            Double.le (attitudeRateLimitDouble (Double.finite st.max_force_) raw)
              (Double.finite st.max_force_)) := by
  have hmf := tickInput_max_force Policy.attitudeRate ops link queue dt st
  have hr : (tickInput Policy.attitudeRate ops link queue dt st).running_ = true := by
    rw [← tickInput_running Policy.attitudeRate ops link queue dt st hdt]; exact hrun
  have hF : tickForceZDouble negZero Policy.attitudeRate ops link queue dt st
      = attitudeRateLimitDouble (Double.finite st.max_force_)
          (tickRawForceZDouble negZero Policy.attitudeRate ops link queue dt st) := by
    unfold tickForceZDouble
    simp only [hr, if_true, hmf]
  obtain ⟨s1, s2, s3⟩ := attitudeRateLimitDouble_spec st.max_force_ _ hnum
  rw [hF]
  refine ⟨s1, s2, s3, ?_, ?_⟩
  · intro hdot
    have hraw := tickRawForceZDouble_attitudeRate negZero ops link queue dt st hdot
    refine ⟨hraw, ?_⟩
    rw [hraw, attitudeRateLimitDouble_finite, Update_attitudeRate_of_running ops link queue dt st hdt hr,
      attitudeRateLaw_force_z, hmf]
  · intro raw hraw
    exact ⟨(attitudeRateLimitDouble_spec st.max_force_ raw hraw).1,
      (attitudeRateLimitDouble_spec st.max_force_ raw hraw).2.1⟩

/-- C14 as amended, witness: a hovering body of weight 1 with `max_force = 10` emits 1. -/
theorem vertical_force_attitudeRate_witness :
    (Update Policy.attitudeRate exampleOps exampleLink [] true 1 hoverState).running_ = true
      ∧ Double.le (Double.finite 0)
        (tickForceZDouble false Policy.attitudeRate exampleOps exampleLink [] 1 hoverState)
      ∧ Double.le (tickForceZDouble false Policy.attitudeRate exampleOps exampleLink [] 1 hoverState)
        (Double.finite hoverState.max_force_)
      ∧ tickForceZDouble false Policy.attitudeRate exampleOps exampleLink [] 1 hoverState
        = Double.finite 1 :=
  have hrun : (Update Policy.attitudeRate exampleOps exampleLink [] true 1 hoverState).running_
      = true := by decide!
  have h := vertical_force_attitudeRate false exampleOps exampleLink [] 1 hoverState
    (by norm_num) hrun (by decide!)
  ⟨hrun, h.1, h.2.1 (by norm_num [hoverState, runningState, exampleState]),
   h.2.2.1 1 (by decide!) (by norm_num)
     (fun _ => by norm_num [hoverState, runningState, exampleState])⟩

/-- C14, counterexample: in a world without gravity the raw vertical force is NaN, neither the
cap nor the floor fires, and the emitted `force.Z()` is NaN: it is neither `>= 0` nor
`<= max_force`. -/
theorem zero_gravity_thrust_is_nan :
    (1 : ℚ) > 0
      ∧ (Update Policy.attitudeRate exampleOps zeroGravityLink [] true 1 hoverState).running_
        = true
      ∧ hoverState.max_force_ > 0
      ∧ tickForceZDouble false Policy.attitudeRate exampleOps zeroGravityLink [] 1 hoverState
        = Double.nan
      ∧ tickForceZDouble true Policy.attitudeRate exampleOps zeroGravityLink [] 1 hoverState
        = Double.nan
      ∧ ¬ Double.le (Double.finite 0)
          (tickForceZDouble false Policy.attitudeRate exampleOps zeroGravityLink [] 1 hoverState)
      ∧ ¬ Double.le
          (tickForceZDouble false Policy.attitudeRate exampleOps zeroGravityLink [] 1 hoverState)
          (Double.finite hoverState.max_force_) := by
  have h1 : tickForceZDouble false Policy.attitudeRate exampleOps zeroGravityLink [] 1
      hoverState = Double.nan := by decide!
  have h2 : tickForceZDouble true Policy.attitudeRate exampleOps zeroGravityLink [] 1
      hoverState = Double.nan := by decide!
  refine ⟨by norm_num, by decide!, by norm_num [hoverState, runningState, exampleState], h1, h2,
    ?_, ?_⟩
  · rw [h1]; simp [Double.le]
  · rw [h1]; simp [Double.le]

end Special

end gazebo
